import Mathlib

/-!
# Verification of the pi-security-camera backend core

Shallow embedding of the authentication / session-lifecycle and
camera-subscription subsystems of the `pi-security-camera` server,
translated from the Python source under `server/app/`, together with
theorems settling the specification claims about them.

Modelling conventions:
* SQLAlchemy rows become Lean structures; the relational store becomes a
  `DB` structure holding lists of rows.  Timestamps are `Int` (seconds).
* Python functions that can raise become functions into `Except ApiError`
  (or return the threaded `DB` state next to an `Except`, since the
  source commits intermediate states before a later statement can raise).
* The argon2 password-hashing primitive and the JWT codec are external
  collaborators (spec §1); they are modelled by concrete injective
  stand-ins so that every definition stays executable.
-/

namespace PiCam

/-- Row of the `users` table (`app/db/db_models.py`, class `User`). -/
structure UserRow where
  id : Nat
  email : String
  password_hash : String
  is_admin : Bool
deriving Repr, DecidableEq

/-- Row of the `cameras` table (`app/db/db_models.py`, class `Camera`). -/
structure CameraRow where
  id : Nat
  host_address : String
  name : String
  auth_key : String
  mac_address : String
deriving Repr, DecidableEq

/-- Row of the `camera_subscriptions` join table (`app/db/db_models.py`).
The table's primary key is the `(user_id, camera_id)` pair; the
`registered_at` column plays no role in any claim and is omitted. -/
structure SubRow where
  user_id : Nat
  camera_id : Nat
deriving Repr, DecidableEq

/-- Row of the `refresh_tokens` table (`app/db/db_models.py`, class
`RefreshToken`).  `device_info` plays no role in any claim. -/
structure RefreshTokenRow where
  id : Nat
  token : String
  user_id : Nat
  expires_at : Int
  issued_at : Int
deriving Repr, DecidableEq

/-- The relational store: one list of rows per table, plus the
autoincrement counter for `refresh_tokens.id`. -/
structure DB where
  users : List UserRow
  cameras : List CameraRow
  subs : List SubRow
  refresh_tokens : List RefreshTokenRow
  next_refresh_id : Nat
deriving Repr, DecidableEq

/-- Errors surfaced by the embedded operations.  `http` models a raised
`fastapi.HTTPException (status_code, detail)`; the remaining
constructors model uncaught Python exceptions (which FastAPI turns into
a 500 response, not an HTTP error chosen by the route) and database
constraint violations. -/
inductive ApiError where
  | http (status : Nat) (detail : String)
  | valueError (msg : String)
  | indexError
  | integrityError
deriving Repr, DecidableEq

/-! ## Python string primitives -/

/-- Helper for `pySplit`, structurally recursive over the character list. -/
def splitAux (sep : Char) : List Char → List Char → List (List Char)
  | [], acc => [acc.reverse]
  | c :: rest, acc =>
    if c = sep then acc.reverse :: splitAux sep rest []
    else splitAux sep rest (c :: acc)

/-- Python `str.split(sep)` for a one-character separator: splits at every
occurrence of `sep`, keeping empty pieces (`"".split(":") == [""]`,
`"a::b".split(":") == ["a","","b"]`). -/
def pySplit (s : String) (sep : Char) : List String :=
  (splitAux sep s.toList []).map (fun l => String.mk l)

/-! ## Credential hasher (`app/core/security/hashing.py`)

The argon2 `PasswordHasher` is an external collaborator (spec §1 treats
it as an opaque one-way function with a verify counterpart).  We model
`hasher.hash(password, salt)` by a concrete injective encoding and
`hasher.verify(hash, password)` by its matching check; `verify` returns
`true` on a match and `false` both on a mismatch
(`VerifyMismatchError`) and on a malformed hash (`InvalidHashError`),
because `verify_password` catches all three argon2 exception classes
and returns `False`. -/

/-- Stand-in for `argon2.PasswordHasher.hash(password, salt=...)`. -/
def hasherHash (password salt : String) : String :=
  "argon2" ++ "$" ++ salt ++ "$" ++ password

/-- Stand-in for `argon2.PasswordHasher.verify(hash, password)` with the
`VerifyMismatchError` / `VerificationError` / `InvalidHashError`
exceptions already collapsed to `false` (they are all caught by the one
`except` clause in `verify_password`). -/
def hasherVerify (hash password : String) : Bool :=
  match pySplit hash '$' with
  | ["argon2", _salt, stored] => stored == password
  | _ => false

/-- Embeds `generate_hashed_password` (`app/core/security/hashing.py`): returns
`f"{salt}:{hashed_password}"`. -/
def generate_hashed_password (password salt : String) : String :=
  salt ++ ":" ++ hasherHash password salt

/-- Embeds `verify_password` (`app/core/security/hashing.py`):
```python
hash_without_salt: str = hashed_password.split(":")[1]
try:
    return hasher.verify(hash=hash_without_salt, password=plain_password)
except (VerifyMismatchError, VerificationError, InvalidHashError):
    return False
```
The `split(":")[1]` indexing happens *outside* the `try` block: on a
stored hash containing no `":"` separator, `split` returns a singleton
list and the `[1]` access raises an uncaught `IndexError`. -/
def verify_password (plain_password hashed_password : String) : Except ApiError Bool :=
  match (pySplit hashed_password ':')[1]? with
  | none => .error .indexError
  | some hash_without_salt => .ok (hasherVerify hash_without_salt plain_password)

/-! ## Row queries (`app/services/user.py`, `app/crud/camera.py`)

`db.query(T).filter(T.col == v).first()` becomes `List.find?`; list
queries with an id filter become `List.filter` plus `drop`/`take` for
the `offset`/`limit` pagination. -/

/-- Embeds `get_user_by_id` (`app/services/user.py`). -/
def get_user_by_id (db : DB) (user_id : Nat) : Option UserRow :=
  db.users.find? (fun u => u.id == user_id)

/-- Embeds `get_user_by_email` (`app/services/user.py`). -/
def get_user_by_email (db : DB) (email : String) : Option UserRow :=
  db.users.find? (fun u => u.email == email)

/-- Embeds `get_users` (`app/services/user.py`): `if not user_ids` (covering both
`None` and `[]`) returns every user; otherwise it filters by
`User.id.in_(user_ids)`.  Pagination defaults are `skip=0, limit=100`. -/
def get_users (db : DB) (user_ids : List Nat) (skip limit : Nat) : List UserRow :=
  if user_ids.isEmpty then (db.users.drop skip).take limit
  else ((db.users.filter (fun u => user_ids.contains u.id)).drop skip).take limit

/-- Embeds `get_camera` (`app/services/camera.py` / `app/crud/camera.py`). -/
def get_camera (db : DB) (camera_id : Nat) : Option CameraRow :=
  db.cameras.find? (fun c => c.id == camera_id)

/-- Modelled from the spec: `app/services/camera.py` is not under `src/`
(only its callers and its older in-`src` twin `app/crud/camera.py` are).
Per spec §6 the store exposes "filtered, paginated list queries (`skip`,
`limit`, optional equality/substring filters per field)"; the id-list
argument is an equality filter on `Camera.id` (exactly the
`Camera.id.in_(camera_ids)` query of the in-`src` twin, with the Python
`if not camera_ids` idiom treating an empty filter as "no filter"), and
the remaining per-field filters are equality filters applied before
pagination. -/
def camera_service_get_cameras (db : DB) (camera_ids : Option (List Nat))
    (name : Option String) (host_address : Option String)
    (mac_address : Option String) (skip limit : Nat) : List CameraRow :=
  let l1 := match camera_ids with
    | none => db.cameras
    | some ids => if ids.isEmpty then db.cameras
                  else db.cameras.filter (fun c => ids.contains c.id)
  let l2 := match name with
    | none => l1
    | some n => l1.filter (fun c => c.name == n)
  let l3 := match host_address with
    | none => l2
    | some h => l2.filter (fun c => c.host_address == h)
  let l4 := match mac_address with
    | none => l3
    | some m => l3.filter (fun c => c.mac_address == m)
  (l4.drop skip).take limit

/-! ## Subscription services (`app/services/camera_subscription.py`)

The ORM relationship `User.cameras` joins `users` to `cameras` through
the `camera_subscriptions` table, so it yields exactly the existing
camera rows whose id appears in a subscription row for that user
(symmetrically for `Camera.users`).  Appending to the relationship
inserts a join row; removing from it deletes one, and removing a member
that is not present raises `ValueError` (Python `list.remove`). -/

/-- Does a `camera_subscriptions` row for the pair exist? -/
def subscribed (db : DB) (user_id camera_id : Nat) : Bool :=
  db.subs.any (fun s => s.user_id == user_id && s.camera_id == camera_id)

/-- The ORM relationship `User.cameras`. -/
def user_cameras (db : DB) (user_id : Nat) : List CameraRow :=
  db.cameras.filter (fun c => subscribed db user_id c.id)

/-- The ORM relationship `Camera.users`. -/
def camera_users (db : DB) (camera_id : Nat) : List UserRow :=
  db.users.filter (fun u => subscribed db u.id camera_id)

/-- Python `set(xs)` over ids followed by iteration: the iteration order
of a Python set is unspecified, so any duplicate-free enumeration is a
faithful model; we keep the last occurrence of each id (`List.dedup`). -/
def pySet (xs : List Nat) : List Nat := xs.dedup

/-- Removes the first `camera_subscriptions` row matching the pair
(SQLAlchemy deletes the row addressed by its primary key, which is the
pair itself). -/
def eraseSubFirst : List SubRow → Nat → Nat → List SubRow
  | [], _, _ => []
  | s :: rest, u, c =>
    if s.user_id == u && s.camera_id == c then rest
    else s :: eraseSubFirst rest u c

/-- Embeds `get_camera_subscriptions_by_user`
(`app/services/camera_subscription.py`): builds one
`CameraSubscription(user_id, camera.id)` record per member of
`db_user.cameras`; returns `[]` when the user does not exist. -/
def get_camera_subscriptions_by_user (db : DB) (user_id : Nat) : List SubRow :=
  match get_user_by_id db user_id with
  | none => []
  | some u => (user_cameras db u.id).map (fun c => ⟨u.id, c.id⟩)

/-- Embeds `get_camera_subscriptions_by_camera`
(`app/services/camera_subscription.py`). -/
def get_camera_subscriptions_by_camera (db : DB) (camera_id : Nat) : List SubRow :=
  match get_camera db camera_id with
  | none => []
  | some cam => (camera_users db cam.id).map (fun u => ⟨u.id, camera_id⟩)

/-- One iteration of the `for id in unsubscribed_camera_ids` loop of
`create_camera_subscriptions_by_user`: look the camera up, and if it
exists link it to the user (`db_user.cameras.append(camera)`) and record
the change. -/
def createByUserStep (uid : Nat) (acc : DB × List SubRow) (i : Nat) : DB × List SubRow :=
  match get_camera acc.1 i with
  | none => acc
  | some cam =>
    ({acc.1 with subs := acc.1.subs ++ [⟨uid, cam.id⟩]}, acc.2 ++ [⟨uid, cam.id⟩])

/-- Embeds `create_camera_subscriptions_by_user`
(`app/services/camera_subscription.py`): returns `[]` when the user does
not exist; otherwise subscribes the user to every *existing* camera in
`set(camera_ids) - subscribed_camera_ids`, silently skipping ids with no
camera row (`if camera:`), and returns the created records. -/
def create_camera_subscriptions_by_user (db : DB) (user_id : Nat)
    (camera_ids : List Nat) : DB × List SubRow :=
  match get_user_by_id db user_id with
  | none => (db, [])
  | some u =>
    let current := get_camera_subscriptions_by_user db user_id
    let subscribed_camera_ids := current.map (·.camera_id)
    let unsubscribed_camera_ids :=
      (pySet camera_ids).filter (fun i => ¬ subscribed_camera_ids.contains i)
    unsubscribed_camera_ids.foldl (createByUserStep u.id) (db, [])

/-- One iteration of the `for id in unsubscribed_user_ids` loop of
`create_camera_subscriptions_by_camera`. -/
def createByCameraStep (cid : Nat) (acc : DB × List SubRow) (i : Nat) : DB × List SubRow :=
  match get_user_by_id acc.1 i with
  | none => acc
  | some u =>
    ({acc.1 with subs := acc.1.subs ++ [⟨u.id, cid⟩]}, acc.2 ++ [⟨u.id, cid⟩])

/-- Embeds `create_camera_subscriptions_by_camera`
(`app/services/camera_subscription.py`): the user-initiated algorithm
with roles swapped; the created records carry
`CameraSubscription(user_id=user.id, camera_id=camera_id)`. -/
def create_camera_subscriptions_by_camera (db : DB) (camera_id : Nat)
    (user_ids : List Nat) : DB × List SubRow :=
  match get_camera db camera_id with
  | none => (db, [])
  | some cam =>
    let current := get_camera_subscriptions_by_camera db camera_id
    let subscribed_user_ids := current.map (·.user_id)
    let unsubscribed_user_ids :=
      (pySet user_ids).filter (fun i => ¬ subscribed_user_ids.contains i)
    unsubscribed_user_ids.foldl (createByCameraStep cam.id) (db, [])

/-- Embeds `delete_camera_subscriptions_by_user`
(`app/services/camera_subscription.py`): fetches the cameras named by
`camera_ids` and unlinks each from the user
(`db_user.cameras.remove(camera)`); removing a camera the user is not
subscribed to raises `ValueError`.  Each change record is
`CameraSubscription(user_id=db_user.id, camera_id=camera.id)`.
`deleteByUserGo` is the `for camera in cameras` loop. -/
def deleteByUserGo (uid : Nat) (acc : DB × List SubRow) :
    List CameraRow → DB × Except ApiError (List SubRow)
  | [] => (acc.1, .ok acc.2)
  | cam :: rest =>
    if subscribed acc.1 uid cam.id then
      deleteByUserGo uid
        ({acc.1 with subs := eraseSubFirst acc.1.subs uid cam.id},
         acc.2 ++ [⟨uid, cam.id⟩]) rest
    else (acc.1, .error (.valueError "list.remove(x): x not in list"))

/-- Embeds `delete_camera_subscriptions_by_user`, continued: the service entry
point. -/
def delete_camera_subscriptions_by_user (db : DB) (user_id : Nat)
    (camera_ids : List Nat) : DB × Except ApiError (List SubRow) :=
  match get_user_by_id db user_id with
  | none => (db, .ok [])
  | some u =>
    let cameras := camera_service_get_cameras db (some camera_ids) none none none 0 100
    deleteByUserGo u.id (db, []) cameras

/-- Embeds `delete_camera_subscriptions_by_camera`
(`app/services/camera_subscription.py`): fetches the users named by
`user_ids` and unlinks each from the camera.  NOTE the change record the
source builds here is `CameraSubscription(user_id=camera_id,
camera_id=user.id)` — the two fields are swapped relative to every
sibling function.  `deleteByCameraGo` is the `for user in users` loop. -/
def deleteByCameraGo (cid : Nat) (acc : DB × List SubRow) :
    List UserRow → DB × Except ApiError (List SubRow)
  | [] => (acc.1, .ok acc.2)
  | u :: rest =>
    if subscribed acc.1 u.id cid then
      deleteByCameraGo cid
        ({acc.1 with subs := eraseSubFirst acc.1.subs u.id cid},
         acc.2 ++ [⟨cid, u.id⟩]) rest
    else (acc.1, .error (.valueError "list.remove(x): x not in list"))

/-- Embeds `delete_camera_subscriptions_by_camera`, continued: the service entry
point. -/
def delete_camera_subscriptions_by_camera (db : DB) (camera_id : Nat)
    (user_ids : List Nat) : DB × Except ApiError (List SubRow) :=
  match get_camera db camera_id with
  | none => (db, .ok [])
  | some cam =>
    let users := get_users db user_ids 0 100
    deleteByCameraGo cam.id (db, []) users

/-! ## Subscription CRUD (`app/crud/camera_subscription.py`)

This is the older generation of the subscription code, used by
`app/routes/camera_subscriptions.py`.  Its `CameraSubscription` rows are
the rows of the `camera_subscriptions` join table, whose primary key is
the `(user_id, camera_id)` pair (`app/db_models.py`), so inserting a row
whose pair already exists fails with an `IntegrityError` at commit.
Each crud function commits before returning, so on an uncaught error the
store keeps everything committed so far; every operation therefore
returns the resulting `DB` next to its `Except` outcome. -/

/-- Embeds `get_camera_subscription` (`app/crud/camera_subscription.py`). -/
def crud_get_camera_subscription (db : DB) (user_id camera_id : Nat) : Option SubRow :=
  db.subs.find? (fun s => s.user_id == user_id && s.camera_id == camera_id)

/-- Embeds `get_camera_subscriptions_by_user_id`
(`app/crud/camera_subscription.py`), with its `skip=0, limit=100`
pagination defaults made explicit. -/
def crud_get_camera_subscriptions_by_user_id (db : DB) (user_id : Nat)
    (skip limit : Nat) : List SubRow :=
  ((db.subs.filter (fun s => s.user_id == user_id)).drop skip).take limit

/-- Embeds `create_camera_subscription` (`app/crud/camera_subscription.py`):
`INSERT` plus `commit`; the `(user_id, camera_id)` primary key makes the
commit raise `IntegrityError` when a row for the pair already exists. -/
def crud_create_camera_subscription (db : DB) (user_id camera_id : Nat) :
    DB × Except ApiError SubRow :=
  if (crud_get_camera_subscription db user_id camera_id).isSome then
    (db, .error .integrityError)
  else
    ({db with subs := db.subs ++ [⟨user_id, camera_id⟩]}, .ok ⟨user_id, camera_id⟩)

/-- Embeds `delete_camera_subscription` (`app/crud/camera_subscription.py`):
looks the row up by the pair, deletes it when found, and returns it
(`none` when there was nothing to delete). -/
def crud_delete_camera_subscription (db : DB) (user_id camera_id : Nat) :
    DB × Option SubRow :=
  match crud_get_camera_subscription db user_id camera_id with
  | none => (db, none)
  | some s => ({db with subs := eraseSubFirst db.subs user_id camera_id}, some s)

/-- First pass of `update_camera_subscriptions`: the
`for camera_id in camera_ids` loop splitting the request into
`subscriptions_to_keep` (already-existing rows, deduplicated) and
`subscriptions_to_create` (pairs with no existing row), matching the
source's inner `for subscription in old_subscriptions ... break` with
`List.find?`. -/
def buildKeepCreate (old : List SubRow) (user_id : Nat) :
    List Nat → List SubRow × List SubRow → List SubRow × List SubRow
  | [], acc => acc
  | camera_id :: rest, (keep, create) =>
    match old.find? (fun s => s.camera_id == camera_id) with
    | some s =>
      let m : SubRow := ⟨s.user_id, s.camera_id⟩
      buildKeepCreate old user_id rest
        (if keep.contains m then keep else keep ++ [m], create)
    | none =>
      buildKeepCreate old user_id rest (keep, create ++ [⟨user_id, camera_id⟩])

/-- Second pass of `update_camera_subscriptions`: the
`for subscription in old_subscriptions` loop deleting every old row
that is neither kept nor about to be (re)created. -/
def deletePass (keep create : List SubRow) : List SubRow → DB → DB × List SubRow
  | [], db => (db, [])
  | s :: rest, db =>
    if ¬ keep.contains s ∧ ¬ create.contains s then
      let d := crud_delete_camera_subscription db s.user_id s.camera_id
      let next := deletePass keep create rest d.1
      match d.2 with
      | some r => (next.1, r :: next.2)
      | none => next
    else deletePass keep create rest db

/-- Third pass of `update_camera_subscriptions`: the list comprehension
`[create_camera_subscription(db, sub) for sub in subscriptions_to_create]`.
Each insert commits on its own, so an `IntegrityError` on a later insert
leaves the earlier ones in the store. -/
def createPass : List SubRow → DB → DB × Except ApiError (List SubRow)
  | [], db => (db, .ok [])
  | m :: rest, db =>
    let hd := crud_create_camera_subscription db m.user_id m.camera_id
    match hd.2 with
    | .error e => (hd.1, .error e)
    | .ok r =>
      let tl := createPass rest hd.1
      (tl.1, tl.2.map (fun rs => r :: rs))

/-- Embeds `update_camera_subscriptions` (`app/crud/camera_subscription.py`):
replaces a user's subscriptions with the requested camera-id list and
returns the created records followed by the deleted ones.  No pass
checks whether a requested camera id actually exists in the `cameras`
table. -/
def update_camera_subscriptions (db : DB) (user_id : Nat) (camera_ids : List Nat) :
    DB × Except ApiError (List SubRow) :=
  let old := crud_get_camera_subscriptions_by_user_id db user_id 0 100
  let kc := buildKeepCreate old user_id camera_ids ([], [])
  let del := deletePass kc.1 kc.2 old db
  let cr := createPass kc.2 del.1
  (cr.1, cr.2.map (fun created => created ++ del.2))

/-! ## Token codec (`app/core/auth/jwt.py`, `app/api/models/auth.py`)

`encode_token` signs a `(sub, exp, iat)` payload into an opaque JWT
string; the codec is an external collaborator (spec §4.2: readable,
integrity-protected, no encryption), modelled by a concrete injective
encoding of the payload.  A presented bearer token is either a string
whose signature verifies — recovering the payload — or one that fails
verification / parsing, which `jose.jwt.decode` reports by raising
`JWTError`; `TokenInput` models the two cases. -/

/-- A decoded JWT payload (`TokenPayload`): `sub` is an opaque string
(the stringified user id), `exp` and `iat` are timestamps. -/
structure Jwt where
  sub : String
  exp : Int
  iat : Int
deriving Repr, DecidableEq

/-- Stand-in for `encode_token`: the signed, opaque token string for a
payload. -/
def encodeToken (p : Jwt) : String :=
  "jwt." ++ p.sub ++ "." ++ toString p.exp ++ "." ++ toString p.iat

/-- A bearer token as presented by a client: either malformed /
wrongly-signed (any string whose signature does not verify) or the
well-signed encoding of some payload. -/
inductive TokenInput where
  | malformed
  | signed (payload : Jwt)
deriving Repr, DecidableEq

/-- Configured access-token lifetime:
`settings.ACCESS_TOKEN_EXPIRE_MINUTES` (default 30), in seconds. -/
def accessTokenLifetime : Int := 30 * 60

/-- Configured refresh-token lifetime:
`settings.REFRESH_TOKEN_EXPIRE_DAYS` (default 30), in seconds. -/
def refreshTokenLifetime : Int := 30 * 86400

/-- Embeds `create_access_token` (`app/api/auth.py`) with an explicit
`expires_delta`: payload `sub`, expiry `now + delta`, issued at `now`,
returned as the encoded string. -/
def create_access_token_delta (sub : String) (delta : Int) (now : Int) : String :=
  encodeToken ⟨sub, now + delta, now⟩

/-- Embeds `create_access_token` with `expires_delta=None`: falls back to
`settings.ACCESS_TOKEN_EXPIRE_MINUTES`. -/
def create_access_token (sub : String) (now : Int) : String :=
  create_access_token_delta sub accessTokenLifetime now

/-! ## Python `int(...)` on the token subject -/

/-- One step of Python `int(str)` digit parsing: digits with single
underscores allowed between digits. -/
def pyIntDigitsAux (acc : Nat) : List Char → Option Nat
  | [] => some acc
  | '_' :: c :: rest =>
    if c.isDigit then pyIntDigitsAux (acc * 10 + (c.toNat - 48)) rest else none
  | c :: rest =>
    if c.isDigit then pyIntDigitsAux (acc * 10 + (c.toNat - 48)) rest else none

/-- Python `int(str)` digit-sequence grammar: a leading digit, then
digits with single underscores in between. -/
def pyIntDigits : List Char → Option Nat
  | [] => none
  | c :: rest => if c.isDigit then pyIntDigitsAux (c.toNat - 48) rest else none

/-- ASCII whitespace stripped by Python `int(str)`. -/
def isPySpace (c : Char) : Bool :=
  c == ' ' || c == '\t' || c == '\n' || c == '\r' || c == '\x0b' || c == '\x0c'

/-- Python `int(str)`: optional surrounding whitespace, optional sign,
then a digit sequence; `none` models the raised `ValueError`. -/
def pyInt (s : String) : Option Int :=
  let cs := ((s.toList.dropWhile isPySpace).reverse.dropWhile isPySpace).reverse
  match cs with
  | '+' :: rest => (pyIntDigits rest).map (fun n => (n : Int))
  | '-' :: rest => (pyIntDigits rest).map (fun n => -(n : Int))
  | rest => (pyIntDigits rest).map (fun n => (n : Int))

/-! ## Session manager (`app/services/auth.py`, `app/api/auth.py`,
`app/api/routes/auth.py`) -/

/-- Embeds `get_refresh_token` (`app/services/auth.py`): exact string match on
the `token` column. -/
def get_refresh_token (db : DB) (token : String) : Option RefreshTokenRow :=
  db.refresh_tokens.find? (fun r => r.token == token)

/-- Embeds `create_refresh_token` (`app/services/auth.py`): the expiry is the
given one, or `now + REFRESH_TOKEN_EXPIRE_DAYS` when `None`; the token
string is the JWT of `(str(user_id), expires_at, issued_at=now)`; the
row is inserted and committed.  The `token` column carries a UNIQUE
index, so the commit raises `IntegrityError` if the same token string is
already stored. -/
def create_refresh_token (db : DB) (user_id : Nat) (expires_at : Option Int)
    (now : Int) : DB × Except ApiError RefreshTokenRow :=
  let exp := expires_at.getD (now + refreshTokenLifetime)
  let token := encodeToken ⟨toString user_id, exp, now⟩
  if db.refresh_tokens.any (fun r => r.token == token) then
    (db, .error .integrityError)
  else
    let row : RefreshTokenRow := ⟨db.next_refresh_id, token, user_id, exp, now⟩
    ({db with refresh_tokens := db.refresh_tokens ++ [row],
              next_refresh_id := db.next_refresh_id + 1}, .ok row)

/-- Embeds `revoke_refresh_token` (`app/services/auth.py`): deletes the given
row (addressed by its primary key `id`); deleting a row that is already
gone is a no-op at the store (SQLAlchemy emits a warning for an
unversioned mapper and proceeds). -/
def revoke_refresh_token (db : DB) (rt : RefreshTokenRow) : DB :=
  {db with refresh_tokens := db.refresh_tokens.filter (fun r => r.id != rt.id)}

/-- The `Token` response model (`app/api/models/auth.py`): access token
string plus optional refresh token string. -/
structure TokenResponse where
  access_token : String
  refresh_token : Option String
deriving Repr, DecidableEq

/-- Embeds `login_for_access_token` (`app/api/routes/auth.py`): resolves the
user by email; `if not user or not verify_password(...)` raises one and
the same `HTTPException(401, "Incorrect username or password")` for both
the no-such-user and the wrong-password case (short-circuit: the hash is
never inspected when the user is missing).  On success issues an access
token and a fresh refresh token. -/
def login_for_access_token (db : DB) (username password : String) (now : Int) :
    DB × Except ApiError TokenResponse :=
  match get_user_by_email db username with
  | none => (db, .error (.http 401 "Incorrect username or password"))
  | some user =>
    match verify_password password user.password_hash with
    | .error e => (db, .error e)
    | .ok false => (db, .error (.http 401 "Incorrect username or password"))
    | .ok true =>
      let access := create_access_token (toString user.id) now
      match create_refresh_token db user.id none now with
      | (db1, .error e) => (db1, .error e)
      | (db1, .ok rt) => (db1, .ok ⟨access, some rt.token⟩)

/-- Embeds `refresh_access_token` (`app/api/routes/auth.py`): looks the refresh
token up by exact string; raises `HTTPException(401)` when it is absent
or its `expires_at` has passed, and when its owner no longer exists;
otherwise creates the replacement token *reusing the old row's
`expires_at`*, deletes the old row, and issues a fresh access token. -/
def refresh_access_token (db : DB) (refresh_token_str : String) (now : Int) :
    DB × Except ApiError TokenResponse :=
  match get_refresh_token db refresh_token_str with
  | none => (db, .error (.http 401 "Invalid or expired refresh token"))
  | some rt =>
    if rt.expires_at < now then
      (db, .error (.http 401 "Invalid or expired refresh token"))
    else
      match get_user_by_id db rt.user_id with
      | none => (db, .error (.http 401 "User not found"))
      | some user =>
        match create_refresh_token db user.id (some rt.expires_at) now with
        | (db1, .error e) => (db1, .error e)
        | (db1, .ok newRt) =>
          let db2 := revoke_refresh_token db1 rt
          let access := create_access_token (toString user.id) now
          (db2, .ok ⟨access, some newRt.token⟩)

/-- Embeds `decode_access_token` (`app/api/auth.py`): `jose.jwt.decode` inside
a `try` that turns every `JWTError` — signature mismatch, malformed
structure, and `ExpiredSignatureError` for `exp` in the past — into
`HTTPException(401, "Could not validate credentials")`. -/
def decode_access_token (t : TokenInput) (now : Int) : Except ApiError Jwt :=
  match t with
  | .malformed => .error (.http 401 "Could not validate credentials")
  | .signed p =>
    if p.exp < now then .error (.http 401 "Could not validate credentials")
    else .ok p

/-- Embeds `get_current_user` (`app/api/auth.py`): decodes the bearer token
(401 on failure), re-checks expiry (401), converts the subject with
`int(payload.sub)` — NOTE: a non-integer subject lands in
`except ValueError: raise ValueError("Token subject isn't valid!")`,
an uncaught plain `ValueError`, not an `HTTPException` — and resolves
the user (401 when no user has that id). -/
def get_current_user (db : DB) (t : TokenInput) (now : Int) : Except ApiError UserRow :=
  match decode_access_token t now with
  | .error e => .error e
  | .ok payload =>
    if payload.exp < now then .error (.http 401 "Expired token")
    else
      match pyInt payload.sub with
      | none => .error (.valueError "Token subject isn't valid!")
      | some uid =>
        match db.users.find? (fun u => ((u.id : Int) == uid)) with
        | none => .error (.http 401 "Could not validate credentials")
        | some u => .ok u

/-! ## Routes (`app/api/routes/users.py`, `app/api/routes/cameras.py`,
`app/routes/camera_subscriptions.py`)

The `id_or_email` path parameter is taken in its integer form (the
claims only involve user ids); `user_matches_id_or_email` then reduces
to an id comparison (`app/core/utils.py`). -/

/-- Embeds `create_camera_subscriptions` (`app/api/routes/users.py`, the bulk
`POST /{id_or_email}/subscriptions/` route): permission check, user
check, then the camera-existence check
```python
cameras = camera_service.get_cameras(db_session, camera_ids=camera_id)
for camera in cameras:
    if camera.id not in camera_id:
        raise HTTPException(404, f"Failed to apply subscriptions: Camera {camera.id} not found!")
```
NOTE: it iterates over the cameras *fetched by those very ids*, so the
condition never holds; requested ids with no camera row are never
reported.  Finally delegates to `create_camera_subscriptions_by_user`. -/
def route_create_camera_subscriptions (db : DB) (current_user : UserRow)
    (target_user_id : Nat) (camera_id_list : List Nat) :
    DB × Except ApiError (List SubRow) :=
  if ¬ current_user.is_admin ∧ current_user.id ≠ target_user_id then
    (db, .error (.http 403 "Not enough permissions"))
  else if (get_user_by_id db target_user_id).isNone then
    (db, .error (.http 404 "User not found!"))
  else
    let cameras := camera_service_get_cameras db (some camera_id_list) none none none 0 100
    match cameras.find? (fun cam => ¬ camera_id_list.contains cam.id) with
    | some cam =>
      (db, .error (.http 404
        ("Failed to apply subscriptions: Camera " ++ toString cam.id ++ " not found!")))
    | none =>
      let res := create_camera_subscriptions_by_user db target_user_id camera_id_list
      (res.1, .ok res.2)

/-- Embeds `create_camera_subscription` (`app/routes/camera_subscriptions.py`,
the older single-subscription `POST` route): 400 when the pair already
exists, otherwise inserts it via the crud layer. -/
def route_create_camera_subscription (db : DB) (user_id camera_id : Nat) :
    DB × Except ApiError SubRow :=
  if (crud_get_camera_subscription db user_id camera_id).isSome then
    (db, .error (.http 400 "CameraSubscription already exists!"))
  else crud_create_camera_subscription db user_id camera_id

/-- Embeds `update_camera_subscription` (`app/routes/camera_subscriptions.py`,
the `PUT` route): delegates to the crud reconciliation and answers 404
when the resulting change list is empty. -/
def route_update_camera_subscription (db : DB) (user_id : Nat)
    (camera_ids : List Nat) : DB × Except ApiError (List SubRow) :=
  match update_camera_subscriptions db user_id camera_ids with
  | (db1, .error e) => (db1, .error e)
  | (db1, .ok changes) =>
    if changes.isEmpty then (db1, .error (.http 404 "CameraSubscription not found!"))
    else (db1, .ok changes)

/-- Embeds `get_cameras` (`app/api/routes/cameras.py`, with the optional
id/name/host/mac query filters left at `None`): fetches a page of all
cameras, then — for a non-admin caller — drops every camera whose id is
not among `{camera.id for camera in current_user.cameras}`: the
subscription rule applied as a post-filter after fetching. -/
def route_get_cameras (db : DB) (current_user : UserRow) (skip limit : Nat) :
    List CameraRow :=
  let cameras := camera_service_get_cameras db none none none none skip limit
  if ¬ current_user.is_admin then
    let subscribed_camera_ids := (user_cameras db current_user.id).map (·.id)
    cameras.filter (fun cam => subscribed_camera_ids.contains cam.id)
  else cameras

/-! ## Concurrent refresh (`POST /auth/refresh` twice with one token)

Each inbound request runs `refresh_access_token` against the shared
store.  The route performs three separate store transactions: the
lookup query (`get_refresh_token` together with the user query), the
committed insert of the replacement row (`create_refresh_token`), and
the committed delete of the old row (`revoke_refresh_token`).  Nothing
orders the transactions of two concurrent requests, so an execution is
an interleaving of each thread's three atomic steps against the shared
`DB`. -/

/-- Outcome of one `refresh` request thread. -/
inductive RotResult where
  | success (access refresh : String)
  | unauthorized
  | serverError
deriving Repr, DecidableEq

/-- One refresh-request thread: its program counter, what its lookup
transaction read, the row its insert transaction created, its final
outcome, and the instant its request runs at (which stamps `iat`). -/
structure RefreshThread where
  pc : Nat
  readRow : Option RefreshTokenRow
  newRow : Option RefreshTokenRow
  result : Option RotResult
  now : Int
deriving Repr, DecidableEq

/-- Initial thread state for a request arriving at instant `now`. -/
def RefreshThread.init (now : Int) : RefreshThread :=
  ⟨0, none, none, none, now⟩

/-- One atomic store transaction of a refresh-request thread presenting
token string `t`.
* `pc = 0`: the validation queries — row lookup by exact string, expiry
  check, owner lookup; any failure answers 401 immediately.
* `pc = 1`: the committed insert of the replacement row (reusing the
  old `expires_at`, stamped with this thread's `now`).
* `pc = 2`: the committed delete of the old row (a no-op when the other
  thread already deleted it) and the successful response. -/
def refreshStep (t : String) (db : DB) (th : RefreshThread) : DB × RefreshThread :=
  match th.pc with
  | 0 =>
    match get_refresh_token db t with
    | none => (db, {th with pc := 3, result := some .unauthorized})
    | some rt =>
      if rt.expires_at < th.now then
        (db, {th with pc := 3, result := some .unauthorized})
      else
        match get_user_by_id db rt.user_id with
        | none => (db, {th with pc := 3, result := some .unauthorized})
        | some _ => (db, {th with pc := 1, readRow := some rt})
  | 1 =>
    match th.readRow with
    | none => (db, {th with pc := 3, result := some .serverError})
    | some rt =>
      match create_refresh_token db rt.user_id (some rt.expires_at) th.now with
      | (db1, .error _) => (db1, {th with pc := 3, result := some .serverError})
      | (db1, .ok newRt) => (db1, {th with pc := 2, newRow := some newRt})
  | 2 =>
    match th.readRow, th.newRow with
    | some rt, some newRt =>
      (revoke_refresh_token db rt,
       {th with pc := 3,
                result := some (.success (create_access_token (toString rt.user_id) th.now)
                                         newRt.token)})
    | _, _ => (db, {th with pc := 3, result := some .serverError})
  | _ => (db, th)

/-- Global state of two concurrent refresh requests sharing the store. -/
structure TwoRefreshState where
  db : DB
  a : RefreshThread
  b : RefreshThread
deriving Repr, DecidableEq

/-- Run one atomic step of thread `A` (`false`) or `B` (`true`). -/
def twoRefreshStep (t : String) (s : TwoRefreshState) (who : Bool) : TwoRefreshState :=
  if who then
    let r := refreshStep t s.db s.b
    {s with db := r.1, b := r.2}
  else
    let r := refreshStep t s.db s.a
    {s with db := r.1, a := r.2}

/-- Run a whole schedule (a list of thread choices). -/
def runSchedule (t : String) (s : TwoRefreshState) (sched : List Bool) : TwoRefreshState :=
  sched.foldl (twoRefreshStep t) s

/-! ## Concrete stores used by the counterexample / evaluation theorems -/

/-- An admin user with a well-formed stored password hash. -/
def exAdmin : UserRow := ⟨1, "alice@example.com", generate_hashed_password "pw" "saltsalt", true⟩

/-- A plain (non-admin) user. -/
def exUser3 : UserRow := ⟨3, "carol@example.com", generate_hashed_password "pw3" "saltsalt", false⟩

/-- A camera with id 1. -/
def exCam1 : CameraRow := ⟨1, "10.0.0.1", "frontdoor", "key1", "AA:BB:CC:DD:EE:01"⟩

/-- A camera with id 7. -/
def exCam7 : CameraRow := ⟨7, "10.0.0.7", "backdoor", "key7", "AA:BB:CC:DD:EE:07"⟩

/-- Store for the C5 evaluation: one user, id 1. -/
def exDBusers : DB := ⟨[exAdmin], [], [], [], 0⟩

/-- Store for the C2 evaluation: user 1 and camera 1 exist, camera 2
does not. -/
def exDBcam1 : DB := ⟨[exAdmin], [exCam1], [], [], 0⟩

/-- Store for the C3 counterexample: user 1 exists, no camera at all. -/
def exDBnoCams : DB := ⟨[exAdmin], [], [], [], 0⟩

/-- Store for the C7 evaluation: user 3 subscribed to camera 7. -/
def exDBsub37 : DB := ⟨[exUser3], [exCam7], [⟨3, 7⟩], [], 0⟩

/-- Store for the C1 executions: one live refresh token row
`(id 10, token "t0", user 1, expires_at 1000, issued_at 0)`. -/
def exDBtok : DB := ⟨[exAdmin], [], [], [⟨10, "t0", 1, 1000, 0⟩], 11⟩

/-- Is a thread outcome a success? -/
def isRotSuccess : Option RotResult → Bool
  | some (.success _ _) => true
  | _ => false

/-- The interleaved execution refuting C1: both threads run their lookup
transaction before either runs its delete transaction
(`A.read, B.read, A.insert, A.delete, B.insert, B.delete`), at instants
5 and 6 (both before the expiry 1000). -/
def exInterleaving : TwoRefreshState :=
  runSchedule "t0" ⟨exDBtok, .init 5, .init 6⟩ [false, true, false, false, true, true]

/-- C1: the claim says that of two concurrent `refresh` calls presenting
the same stored token string at most one succeeds, the other failing
with `Unauthorized`.  This is FALSE for the code: the lookup, the insert
of the replacement row, and the delete of the old row are three separate
transactions with no conditional-delete serialization point, so in the
interleaving where both lookups precede both deletes BOTH calls return a
successful token response (the second delete is a no-op and raises
nothing for the unversioned mapper).  This theorem exhibits that
execution: both thread outcomes are `success`, negating "at most one of
them succeeds". -/
theorem C1_counterexample :
    isRotSuccess exInterleaving.a.result = true ∧
    isRotSuccess exInterleaving.b.result = true := by
  constructor <;> rfl

/-- C2: the claim says that if the desired camera-id set contains an id
with no camera row, `create_camera_subscriptions` fails the whole call
with `NotFound` listing the missing id.  This is FALSE for the code: the
existence check iterates over the cameras fetched *by* the requested
ids, so it can never fire, and the service then silently skips the
missing id.  Evaluation at the failing input — admin user 1 requesting
`camera_id=[1, 2]` against a store whose only camera is 1 — shows the
call succeeding with the change list `[(user 1, camera 1)]` and camera 2
silently dropped instead of the claimed `NotFound`. -/
theorem C2_missing_camera_silently_dropped :
    route_create_camera_subscriptions exDBcam1 exAdmin 1 [1, 2] =
      ({exDBcam1 with subs := [⟨1, 1⟩]}, .ok [⟨1, 1⟩]) := rfl

/-- C3 counterexample: the claim says that after a successful
`update_camera_subscriptions(u, S)` the stored subscription set for `u`
equals `S ∩ {existing camera ids}`, and in particular that no row is
created for a camera id with no camera row.  This is FALSE for the code:
no pass of `update_camera_subscriptions` checks camera existence, and
under the default deployment (SQLite without the foreign-key pragma) the
insert commits.  At the explicit input `u = 1`, `S = {5}` against a
store with NO cameras, the call succeeds and stores the row `(1, 5)`,
while `S ∩ {existing camera ids} = ∅`. -/
theorem C3_counterexample :
    update_camera_subscriptions exDBnoCams 1 [5] =
      ({exDBnoCams with subs := [⟨1, 5⟩]}, .ok [⟨1, 5⟩]) ∧
    get_camera exDBnoCams 5 = none ∧
    ¬ ([5].filter (fun i => (get_camera exDBnoCams i).isSome) = [5]) := by
  refine ⟨rfl, rfl, ?_⟩
  decide

/-- C4: the claim says `verify_password` never raises and returns
`false` for a stored hash with an invalid format, including a string
containing no `':'` separator.  This is FALSE for the code: the
`hashed_password.split(":")[1]` indexing sits *outside* the
`try`/`except`, so a stored hash with no `':'` makes the `[1]` access
raise an uncaught `IndexError` instead of returning `false`.  Evaluation
at the failing input shows the raised error. -/
theorem C4_verify_password_raises_without_separator :
    verify_password "pw" "nocolonhash" = .error .indexError := rfl

/-- C5: the claim says every invalid bearer token on a protected route —
including a well-signed, unexpired token whose subject is not a valid
user id string — makes `get_current_user` fail with `Unauthorized`.
This is FALSE for the code: the `int(payload.sub)` conversion failure is
caught only to re-raise a plain `ValueError("Token subject isn't
valid!")`, which FastAPI surfaces as a 500 server error, not a 401.
Evaluation at the failing input — a well-signed token with subject
`"abc"`, expiry 1000, presented at instant 10 against a store whose
only user has id 1 — shows the `ValueError`. -/
theorem C5_nonint_subject_raises_valueerror :
    get_current_user exDBusers (.signed ⟨"abc", 1000, 0⟩) 10 =
      .error (.valueError "Token subject isn't valid!") := rfl

/-- C7: the claim says each change record returned by
`delete_camera_subscriptions_by_camera(c, U)` carries the unsubscribed
user's id in `user_id` and `c`'s id in `camera_id`.  This is FALSE for
the code: it builds `CameraSubscription(user_id=camera_id,
camera_id=user.id)` — the two fields swapped, unlike every sibling
function.  Evaluating the failing input — camera 7, users `[3]`, with
user 3 subscribed to camera 7 — returns the record
`{user_id := 7, camera_id := 3}` instead of `{user_id := 3, camera_id := 7}`. -/
theorem C7_delete_by_camera_swaps_record_fields :
    delete_camera_subscriptions_by_camera exDBsub37 7 [3] =
      ({exDBsub37 with subs := []}, .ok [⟨7, 3⟩]) ∧
    (⟨7, 3⟩ : SubRow).user_id = 7 ∧ (⟨7, 3⟩ : SubRow).camera_id = 3 := by
  exact ⟨rfl, rfl, rfl⟩

/-! ## Helper lemmas about the embedded queries -/

theorem get_camera_id_eq {db : DB} {i : Nat} {cam : CameraRow}
    (h : get_camera db i = some cam) : cam.id = i := by
  have := List.find?_some h
  simpa using this

theorem get_camera_mem {db : DB} {i : Nat} {cam : CameraRow}
    (h : get_camera db i = some cam) : cam ∈ db.cameras :=
  List.mem_of_find?_eq_some h

theorem get_user_by_id_eq {db : DB} {i : Nat} {u : UserRow}
    (h : get_user_by_id db i = some u) : u.id = i := by
  have := List.find?_some h
  simpa using this

theorem get_user_by_id_mem {db : DB} {i : Nat} {u : UserRow}
    (h : get_user_by_id db i = some u) : u ∈ db.users :=
  List.mem_of_find?_eq_some h

theorem subscribed_iff {db : DB} {u c : Nat} :
    subscribed db u c = true ↔ (⟨u, c⟩ : SubRow) ∈ db.subs := by
  unfold subscribed
  rw [List.any_eq_true]
  constructor
  · rintro ⟨s, hs, hpred⟩
    have h1 : s.user_id = u := by
      have := (Bool.and_eq_true _ _).mp hpred |>.1
      simpa using this
    have h2 : s.camera_id = c := by
      have := (Bool.and_eq_true _ _).mp hpred |>.2
      simpa using this
    have : s = (⟨u, c⟩ : SubRow) := by
      cases s; simp_all
    rwa [this] at hs
  · intro hmem
    exact ⟨⟨u, c⟩, hmem, by simp⟩

theorem subscribed_false_iff {db : DB} {u c : Nat} :
    subscribed db u c = false ↔ (⟨u, c⟩ : SubRow) ∉ db.subs := by
  rw [← subscribed_iff]
  cases h : subscribed db u c <;> simp

theorem crud_get_camera_subscription_eq_none {db : DB} {u c : Nat} :
    crud_get_camera_subscription db u c = none ↔ (⟨u, c⟩ : SubRow) ∉ db.subs := by
  unfold crud_get_camera_subscription
  rw [List.find?_eq_none]
  constructor
  · intro h hmem
    have := h _ hmem
    simp at this
  · intro hmem s hs hpred
    have h1 : s.user_id = u := by
      have := (Bool.and_eq_true _ _).mp hpred |>.1
      simpa using this
    have h2 : s.camera_id = c := by
      have := (Bool.and_eq_true _ _).mp hpred |>.2
      simpa using this
    have : s = (⟨u, c⟩ : SubRow) := by cases s; simp_all
    rw [this] at hs
    exact hmem hs

theorem eraseSubFirst_sublist (l : List SubRow) (u c : Nat) :
    (eraseSubFirst l u c).Sublist l := by
  induction l with
  | nil => simp [eraseSubFirst]
  | cons s rest ih =>
    unfold eraseSubFirst
    by_cases h : (s.user_id == u && s.camera_id == c) = true
    · simp only [h, if_true]
      exact (List.sublist_cons_self s rest)
    · simp only [h, if_false]
      exact List.Sublist.cons₂ s ih

theorem eraseSubFirst_nodup {l : List SubRow} (u c : Nat) (h : l.Nodup) :
    (eraseSubFirst l u c).Nodup :=
  (eraseSubFirst_sublist l u c).nodup h

theorem nodup_append_singleton {l : List SubRow} {a : SubRow}
    (h : l.Nodup) (ha : a ∉ l) : (l ++ [a]).Nodup := by
  simp [List.nodup_append, h, ha]

/-! ## C8: login failures are indistinguishable -/

/-- C8: for every login attempt, the failure for a non-existent login
identifier and the failure for an existing user whose stored hash does
not verify against the supplied password are the very same result: the
same `Unauthorized` status (401) and the same message text
("Incorrect username or password"), with the store untouched — so the
response does not reveal whether the user exists.  (The source raises
the one literal `HTTPException` for both branches of
`if not user or not verify_password(...)`.) -/
theorem C8_login_failure_indistinguishable (db : DB) (username password : String)
    (now : Int) :
    (get_user_by_email db username = none →
      login_for_access_token db username password now
        = (db, .error (.http 401 "Incorrect username or password"))) ∧
    (∀ user, get_user_by_email db username = some user →
      verify_password password user.password_hash = .ok false →
      login_for_access_token db username password now
        = (db, .error (.http 401 "Incorrect username or password"))) := by
  constructor
  · intro h
    simp [login_for_access_token, h]
  · intro user hu hv
    simp [login_for_access_token, hu, hv]

/-- Witness for C8 at concrete inputs: `nobody@example.com` does not
exist; `alice@example.com` exists but `"wrong"` is not her password;
both logins answer the identical 401 response. -/
theorem C8_witness :
    (get_user_by_email exDBusers "nobody@example.com" = none ∧
      login_for_access_token exDBusers "nobody@example.com" "pw" 50
        = (exDBusers, .error (.http 401 "Incorrect username or password"))) ∧
    (get_user_by_email exDBusers "alice@example.com" = some exAdmin ∧
      verify_password "wrong" exAdmin.password_hash = .ok false ∧
      login_for_access_token exDBusers "alice@example.com" "wrong" 50
        = (exDBusers, .error (.http 401 "Incorrect username or password"))) :=
  ⟨⟨rfl, (C8_login_failure_indistinguishable exDBusers "nobody@example.com" "pw" 50).1 rfl⟩,
   ⟨rfl, rfl,
    (C8_login_failure_indistinguishable exDBusers "alice@example.com" "wrong" 50).2
      exAdmin rfl rfl⟩⟩

/-! ## C6: refresh-token rotation (sequential functional behaviour) -/

/-- C6: `refresh(t)` fails with `Unauthorized` when no stored row matches
`t` exactly, and when the matching row's `expires_at` has passed.  On
success (live row, existing owner; the freshly minted token string not
colliding with a stored one, and the autoincrement id genuinely fresh)
it returns a fresh access token for the owner together with a new
refresh-token row whose `expires_at` equals the original row's
`expires_at` — rotation never extends the absolute session lifetime —
and the old row is deleted while the new row is stored; no other row is
created. -/
theorem C6_refresh_rotation (db : DB) (t : String) (now : Int) :
    (get_refresh_token db t = none →
      refresh_access_token db t now
        = (db, .error (.http 401 "Invalid or expired refresh token"))) ∧
    (∀ rt, get_refresh_token db t = some rt → rt.expires_at < now →
      refresh_access_token db t now
        = (db, .error (.http 401 "Invalid or expired refresh token"))) ∧
    (∀ rt user, get_refresh_token db t = some rt → ¬ rt.expires_at < now →
      get_user_by_id db rt.user_id = some user →
      (∀ r ∈ db.refresh_tokens,
        r.token ≠ encodeToken ⟨toString user.id, rt.expires_at, now⟩) →
      (∀ r ∈ db.refresh_tokens, r.id ≠ db.next_refresh_id) →
      ∃ db2 newRow,
        refresh_access_token db t now
          = (db2, .ok ⟨create_access_token (toString user.id) now, some newRow.token⟩) ∧
        newRow.expires_at = rt.expires_at ∧
        newRow.user_id = user.id ∧
        newRow ∈ db2.refresh_tokens ∧
        (∀ r ∈ db2.refresh_tokens, r.id ≠ rt.id) ∧
        (∀ r ∈ db2.refresh_tokens, r ∈ db.refresh_tokens ∨ r = newRow)) := by
  refine ⟨?_, ?_, ?_⟩
  · intro h
    simp [refresh_access_token, h]
  · intro rt h hexp
    simp [refresh_access_token, h, hexp]
  · intro rt user h hexp huser hfresh hid
    have hany : db.refresh_tokens.any
        (fun r => r.token == encodeToken ⟨toString user.id, rt.expires_at, now⟩) = false := by
      rw [List.any_eq_false]
      intro r hr
      simpa using hfresh r hr
    have hrtmem : rt ∈ db.refresh_tokens := List.mem_of_find?_eq_some h
    have hrtid : rt.id ≠ db.next_refresh_id := hid rt hrtmem
    refine ⟨{db with
        refresh_tokens := (db.refresh_tokens
          ++ ([⟨db.next_refresh_id, encodeToken ⟨toString user.id, rt.expires_at, now⟩,
              user.id, rt.expires_at, now⟩] : List RefreshTokenRow)).filter
            (fun r => r.id != rt.id),
        next_refresh_id := db.next_refresh_id + 1},
      ⟨db.next_refresh_id, encodeToken ⟨toString user.id, rt.expires_at, now⟩,
        user.id, rt.expires_at, now⟩, ?_, rfl, rfl, ?_, ?_, ?_⟩
    · simp [refresh_access_token, h, hexp, huser, create_refresh_token, hany,
        revoke_refresh_token]
    · simp only [List.mem_filter, List.mem_append, List.mem_singleton]
      constructor
      · exact Or.inr trivial
      · simpa using (Ne.symm hrtid)
    · intro r hr
      simp only [List.mem_filter] at hr
      intro heq
      have := hr.2
      simp [heq] at this
    · intro r hr
      simp only [List.mem_filter, List.mem_append, List.mem_singleton] at hr
      rcases hr.1 with hmem | hnew
      · exact Or.inl hmem
      · exact Or.inr hnew

/-- Witness for C6 at a concrete input: the store holds the live row
`(id 10, "t0", user 1, expires_at 1000)`; refreshing `"t0"` at instant 5
succeeds, the replacement row keeps `expires_at = 1000`, and the old row
is gone. -/
theorem C6_witness :
    ∃ db2 newRow,
      refresh_access_token exDBtok "t0" 5
        = (db2, .ok ⟨create_access_token (toString exAdmin.id) 5, some newRow.token⟩) ∧
      newRow.expires_at = (⟨10, "t0", 1, 1000, 0⟩ : RefreshTokenRow).expires_at ∧
      newRow.user_id = exAdmin.id ∧
      newRow ∈ db2.refresh_tokens ∧
      (∀ r ∈ db2.refresh_tokens, r.id ≠ (⟨10, "t0", 1, 1000, 0⟩ : RefreshTokenRow).id) ∧
      (∀ r ∈ db2.refresh_tokens, r ∈ exDBtok.refresh_tokens ∨ r = newRow) :=
  (C6_refresh_rotation exDBtok "t0" 5).2.2 ⟨10, "t0", 1, 1000, 0⟩ exAdmin rfl
    (by decide) rfl (by decide) (by decide)

/-- Exact-match lookup gives back the presented string. -/
theorem get_refresh_token_token_eq {db : DB} {t : String} {rt : RefreshTokenRow}
    (h : get_refresh_token db t = some rt) : rt.token = t := by
  have := List.find?_some h
  simpa using this

/-- A refresh with a token string that matches no stored row answers the
401 response and leaves the store unchanged. -/
theorem refresh_none_fails (db : DB) (t : String) (now : Int)
    (h : get_refresh_token db t = none) :
    refresh_access_token db t now
      = (db, .error (.http 401 "Invalid or expired refresh token")) := by
  simp [refresh_access_token, h]

/-- C1, amended: the rotation is *not* atomic (see the counterexample),
so "at most one of two concurrent refreshes succeeds" holds only for
sequential executions: whenever `refresh(t)` has completed successfully
(against a store whose token strings are unique, as the UNIQUE index on
the `token` column guarantees), a subsequent `refresh(t)` against the
resulting store finds the row already gone and fails with the 401
`Unauthorized` response. -/
theorem C1_sequential_rotation (db : DB) (t : String) (now1 now2 : Int)
    (htoks : (db.refresh_tokens.map (·.token)).Nodup)
    (resp : TokenResponse)
    (hok : (refresh_access_token db t now1).2 = .ok resp) :
    (refresh_access_token (refresh_access_token db t now1).1 t now2).2
      = .error (.http 401 "Invalid or expired refresh token") := by
  cases hfind : get_refresh_token db t with
  | none => simp [refresh_access_token, hfind] at hok
  | some rt =>
    by_cases hexp : rt.expires_at < now1
    · simp [refresh_access_token, hfind, hexp] at hok
    · cases huser : get_user_by_id db rt.user_id with
      | none => simp [refresh_access_token, hfind, hexp, huser] at hok
      | some user =>
        by_cases hany : db.refresh_tokens.any
            (fun r => r.token == encodeToken ⟨toString user.id, rt.expires_at, now1⟩) = true
        · simp [refresh_access_token, hfind, hexp, huser, create_refresh_token, hany] at hok
        · have hany' : db.refresh_tokens.any
              (fun r => r.token == encodeToken ⟨toString user.id, rt.expires_at, now1⟩) = false :=
            Bool.eq_false_iff.mpr hany
          have hfreshTok : ∀ r ∈ db.refresh_tokens,
              r.token ≠ encodeToken ⟨toString user.id, rt.expires_at, now1⟩ := by
            intro r hr
            have := (List.any_eq_false).mp hany' r hr
            simpa using this
          have hrtmem : rt ∈ db.refresh_tokens := List.mem_of_find?_eq_some hfind
          have hrt_t : rt.token = t := get_refresh_token_token_eq hfind
          have hres : (refresh_access_token db t now1).1
              = {db with
                  refresh_tokens := (db.refresh_tokens
                    ++ ([⟨db.next_refresh_id,
                        encodeToken ⟨toString user.id, rt.expires_at, now1⟩,
                        user.id, rt.expires_at, now1⟩] : List RefreshTokenRow)).filter
                      (fun r => r.id != rt.id),
                  next_refresh_id := db.next_refresh_id + 1} := by
            simp [refresh_access_token, hfind, hexp, huser, create_refresh_token, hany',
              revoke_refresh_token]
          rw [hres]
          have hnone : get_refresh_token {db with
              refresh_tokens := (db.refresh_tokens
                ++ ([⟨db.next_refresh_id,
                    encodeToken ⟨toString user.id, rt.expires_at, now1⟩,
                    user.id, rt.expires_at, now1⟩] : List RefreshTokenRow)).filter
                  (fun r => r.id != rt.id),
              next_refresh_id := db.next_refresh_id + 1} t = none := by
            unfold get_refresh_token
            rw [List.find?_eq_none]
            intro r hr
            simp only [List.mem_filter, List.mem_append, List.mem_singleton] at hr
            rcases hr with ⟨hmem | hnew, hid⟩
            · intro hbeq
              have hrt : r.token = t := by simpa using hbeq
              have : r = rt := List.inj_on_of_nodup_map htoks hmem hrtmem
                (by rw [hrt, hrt_t])
              rw [this] at hid
              simp at hid
            · intro hbeq
              have hrtok : r.token = t := by simpa using hbeq
              rw [hnew] at hrtok
              simp only at hrtok
              exact hfreshTok rt hrtmem (hrt_t.trans hrtok.symm)
          rw [refresh_none_fails _ t now2 hnone]

/-- Witness for the amended C1 at a concrete input: against the store
holding the live row `(id 10, "t0", user 1, expires_at 1000)`, a
completed `refresh("t0")` at instant 5 followed by `refresh("t0")` at
instant 6 yields 401 for the second call. -/
theorem C1_sequential_rotation_witness :
    ((exDBtok.refresh_tokens.map (·.token)).Nodup ∧
      (refresh_access_token exDBtok "t0" 5).2
        = .ok ⟨create_access_token "1" 5, some (encodeToken ⟨"1", 1000, 5⟩)⟩) ∧
    (refresh_access_token (refresh_access_token exDBtok "t0" 5).1 "t0" 6).2
      = .error (.http 401 "Invalid or expired refresh token") :=
  ⟨⟨by decide, rfl⟩,
    C1_sequential_rotation exDBtok "t0" 5 6 (by decide)
      ⟨create_access_token "1" 5, some (encodeToken ⟨"1", 1000, 5⟩)⟩ rfl⟩

/-! ## C9: non-admin camera listing -/

/-- Filtering a list of cameras with pairwise-distinct ids by a
predicate satisfied exactly by `cam`'s id keeps exactly `cam`. -/
theorem filter_unique_id {l : List CameraRow} {cam : CameraRow} (p : CameraRow → Bool)
    (hmem : cam ∈ l) (hnodup : (l.map (·.id)).Nodup)
    (hp : ∀ c ∈ l, p c = true ↔ c.id = cam.id) : l.filter p = [cam] := by
  induction l with
  | nil => cases hmem
  | cons c rest ih =>
    have hnodup' : (rest.map (·.id)).Nodup := (List.nodup_cons.mp hnodup).2
    have hidnotmem : c.id ∉ rest.map (·.id) := (List.nodup_cons.mp hnodup).1
    rcases List.mem_cons.mp hmem with hceq | hrest
    · have hpc : p c = true := (hp c (List.mem_cons_self c rest)).mpr (by rw [hceq])
      have hrestnil : rest.filter p = [] := by
        rw [List.filter_eq_nil_iff]
        intro c2 hc2
        intro hpc2
        have : c2.id = cam.id := (hp c2 (List.mem_cons_of_mem c hc2)).mp hpc2
        rw [hceq] at this
        exact hidnotmem (this ▸ List.mem_map_of_mem (·.id) hc2)
      simp [List.filter_cons, hpc, hrestnil, hceq]
    · have hpc : p c = false := by
        by_contra hne
        have hpc' : p c = true := by
          cases h : p c
          · exact absurd h hne
          · rfl
        have : c.id = cam.id := (hp c (List.mem_cons_self c rest)).mp hpc'
        exact hidnotmem (this ▸ List.mem_map_of_mem (·.id) hrest)
      have := ih hrest hnodup' (fun c2 hc2 => hp c2 (List.mem_cons_of_mem c hc2))
      simp [List.filter_cons, hpc, this]

/-- C9: for a non-admin caller the camera listing route first fetches a
page of all cameras and only then drops the ones the caller is not
subscribed to (the subscription rule as a post-filter, first conjunct);
consequently a caller with no subscription rows receives the empty list
even when cameras exist (second conjunct), and a caller subscribed to
exactly one camera receives exactly that camera (third conjunct, for a
store with distinct camera ids fetched in one page). -/
theorem C9_nonadmin_listing (db : DB) (u : UserRow) (skip limit : Nat)
    (hadm : u.is_admin = false) :
    (route_get_cameras db u skip limit
      = (camera_service_get_cameras db none none none none skip limit).filter
          (fun cam => ((user_cameras db u.id).map (·.id)).contains cam.id)) ∧
    ((∀ s ∈ db.subs, s.user_id ≠ u.id) → route_get_cameras db u skip limit = []) ∧
    (∀ cam, cam ∈ db.cameras →
      (db.cameras.map (·.id)).Nodup →
      (⟨u.id, cam.id⟩ : SubRow) ∈ db.subs →
      (∀ s ∈ db.subs, s.user_id = u.id → s.camera_id = cam.id) →
      db.cameras.length ≤ limit →
      route_get_cameras db u 0 limit = [cam]) := by
  refine ⟨?_, ?_, ?_⟩
  · simp [route_get_cameras, hadm]
  · intro hnosub
    have hsubfalse : ∀ c : Nat, subscribed db u.id c = false := by
      intro c
      rw [subscribed_false_iff]
      intro hmem
      exact hnosub _ hmem rfl
    have hcams : user_cameras db u.id = [] := by
      unfold user_cameras
      rw [List.filter_eq_nil_iff]
      intro c _
      simp [hsubfalse c.id]
    simp [route_get_cameras, hadm, hcams]
  · intro cam hcammem hnodup hsub honly hlen
    have hfetch : camera_service_get_cameras db none none none none 0 limit
        = db.cameras := by
      simp [camera_service_get_cameras, List.take_of_length_le hlen]
    have hpred : ∀ c ∈ db.cameras,
        (((user_cameras db u.id).map (·.id)).contains c.id = true ↔ c.id = cam.id) := by
      intro c _
      constructor
      · intro hcont
        have : c.id ∈ (user_cameras db u.id).map (·.id) := by
          simpa using hcont
        rcases List.mem_map.mp this with ⟨c2, hc2mem, hc2id⟩
        have hc2sub : subscribed db u.id c2.id = true :=
          (List.mem_filter.mp hc2mem).2
        have hrow : (⟨u.id, c2.id⟩ : SubRow) ∈ db.subs := subscribed_iff.mp hc2sub
        have : c2.id = cam.id := honly _ hrow rfl
        rw [← hc2id, this]
      · intro hid
        have hcamsub : subscribed db u.id cam.id = true := subscribed_iff.mpr hsub
        have hcamin : cam ∈ user_cameras db u.id :=
          List.mem_filter.mpr ⟨hcammem, hcamsub⟩
        have : cam.id ∈ (user_cameras db u.id).map (·.id) :=
          List.mem_map_of_mem (·.id) hcamin
        rw [hid]
        simpa using this
    have : db.cameras.filter
        (fun c => ((user_cameras db u.id).map (·.id)).contains c.id) = [cam] :=
      filter_unique_id _ hcammem hnodup hpred
    simpa [route_get_cameras, hadm, hfetch] using this

/-- Witness for C9 at concrete inputs: non-admin user 3 against a store
with cameras 1 and 7.  With no subscription rows the listing is empty;
with exactly the row `(3, 1)` it is exactly `[camera 1]`. -/
theorem C9_witness :
    route_get_cameras ⟨[exUser3], [exCam1, exCam7], [], [], 0⟩ exUser3 0 100 = [] ∧
    route_get_cameras ⟨[exUser3], [exCam1, exCam7], [⟨3, 1⟩], [], 0⟩ exUser3 0 100
      = [exCam1] :=
  ⟨(C9_nonadmin_listing ⟨[exUser3], [exCam1, exCam7], [], [], 0⟩ exUser3 0 100
      rfl).2.1 (by decide),
   (C9_nonadmin_listing ⟨[exUser3], [exCam1, exCam7], [⟨3, 1⟩], [], 0⟩ exUser3 0 100
      rfl).2.2 exCam1 (by decide) (by decide) (by decide) (by decide) (by decide)⟩

/-! ## C10: invariant — at most one subscription row per pair

A `List SubRow` satisfies the invariant exactly when it is duplicate
free, since a row *is* its `(user_id, camera_id)` pair. -/

theorem crud_create_preserves_nodup (db : DB) (u c : Nat) (h : db.subs.Nodup) :
    ((crud_create_camera_subscription db u c).1).subs.Nodup := by
  unfold crud_create_camera_subscription
  by_cases hex : (crud_get_camera_subscription db u c).isSome
  · simp [hex, h]
  · have hnone : crud_get_camera_subscription db u c = none :=
      Option.not_isSome_iff_eq_none.mp hex
    have hnot : (⟨u, c⟩ : SubRow) ∉ db.subs :=
      crud_get_camera_subscription_eq_none.mp hnone
    simp [hex]
    exact nodup_append_singleton h hnot

theorem crud_create_preserves_cameras (db : DB) (u c : Nat) :
    ((crud_create_camera_subscription db u c).1).cameras = db.cameras := by
  unfold crud_create_camera_subscription
  by_cases hex : (crud_get_camera_subscription db u c).isSome <;> simp [hex]

theorem createPass_preserves_nodup (l : List SubRow) (db : DB) (h : db.subs.Nodup) :
    ((createPass l db).1).subs.Nodup := by
  induction l generalizing db with
  | nil => simpa [createPass] using h
  | cons m rest ih =>
    have hdb2 : ((crud_create_camera_subscription db m.user_id m.camera_id).1).subs.Nodup :=
      crud_create_preserves_nodup db m.user_id m.camera_id h
    have hdb3 := ih (crud_create_camera_subscription db m.user_id m.camera_id).1 hdb2
    unfold createPass
    dsimp only
    split
    · simpa using hdb2
    · simpa using hdb3

theorem crud_delete_preserves_nodup (db : DB) (u c : Nat) (h : db.subs.Nodup) :
    ((crud_delete_camera_subscription db u c).1).subs.Nodup := by
  unfold crud_delete_camera_subscription
  cases hfind : crud_get_camera_subscription db u c with
  | none => simpa using h
  | some s => simpa using eraseSubFirst_nodup u c h

theorem deletePass_preserves_nodup (keep create : List SubRow) (old : List SubRow)
    (db : DB) (h : db.subs.Nodup) :
    ((deletePass keep create old db).1).subs.Nodup := by
  induction old generalizing db with
  | nil => simpa [deletePass] using h
  | cons s rest ih =>
    have hdb2 : ((crud_delete_camera_subscription db s.user_id s.camera_id).1).subs.Nodup :=
      crud_delete_preserves_nodup db s.user_id s.camera_id h
    have hnext := ih (crud_delete_camera_subscription db s.user_id s.camera_id).1 hdb2
    unfold deletePass
    by_cases hguard : ¬ keep.contains s ∧ ¬ create.contains s
    · rw [if_pos hguard]
      dsimp only
      split
      · simpa using hnext
      · simpa using hnext
    · rw [if_neg hguard]
      exact ih db h

theorem createByUser_fold_nodup (uid : Nat) (db0 : DB) :
    ∀ (ids : List Nat) (db : DB) (res : List SubRow),
    db.cameras = db0.cameras →
    ids.Nodup →
    db.subs.Nodup →
    (∀ i ∈ ids, ∀ cam, get_camera db0 i = some cam →
      (⟨uid, cam.id⟩ : SubRow) ∉ db.subs) →
    ((ids.foldl (createByUserStep uid) (db, res)).1).subs.Nodup := by
  intro ids
  induction ids with
  | nil =>
    intro db res _ _ hnodup _
    simpa using hnodup
  | cons i rest ih =>
    intro db res hcam hids hnodup hpre
    rw [List.foldl_cons]
    have hgc : get_camera db i = get_camera db0 i := by
      unfold get_camera
      rw [hcam]
    cases hc : get_camera db0 i with
    | none =>
      have hstep : createByUserStep uid (db, res) i = (db, res) := by
        unfold createByUserStep
        rw [hgc, hc]
      rw [hstep]
      exact ih db res hcam (List.nodup_cons.mp hids).2 hnodup
        (fun j hj => hpre j (List.mem_cons_of_mem _ hj))
    | some cam =>
      have hcamid : cam.id = i := get_camera_id_eq hc
      have hstep : createByUserStep uid (db, res) i
          = ({db with subs := db.subs ++ [⟨uid, cam.id⟩]}, res ++ [⟨uid, cam.id⟩]) := by
        unfold createByUserStep
        rw [hgc, hc]
      rw [hstep]
      refine ih _ _ (by simpa using hcam) (List.nodup_cons.mp hids).2
        (nodup_append_singleton hnodup (hpre i (List.mem_cons_self i rest) cam hc)) ?_
      intro j hj cam2 hc2 hmem
      have hji : j ≠ i := fun heq => (List.nodup_cons.mp hids).1 (heq ▸ hj)
      rcases List.mem_append.mp hmem with hm | hm
      · exact hpre j (List.mem_cons_of_mem _ hj) cam2 hc2 hm
      · have heq := List.mem_singleton.mp hm
        have hid2 : cam2.id = cam.id := congrArg SubRow.camera_id heq
        exact hji (by rw [← get_camera_id_eq hc2, hid2, hcamid])

theorem createByCamera_fold_nodup (cid : Nat) (db0 : DB) :
    ∀ (ids : List Nat) (db : DB) (res : List SubRow),
    db.users = db0.users →
    ids.Nodup →
    db.subs.Nodup →
    (∀ i ∈ ids, ∀ u, get_user_by_id db0 i = some u →
      (⟨u.id, cid⟩ : SubRow) ∉ db.subs) →
    ((ids.foldl (createByCameraStep cid) (db, res)).1).subs.Nodup := by
  intro ids
  induction ids with
  | nil =>
    intro db res _ _ hnodup _
    simpa using hnodup
  | cons i rest ih =>
    intro db res husers hids hnodup hpre
    rw [List.foldl_cons]
    have hgu : get_user_by_id db i = get_user_by_id db0 i := by
      unfold get_user_by_id
      rw [husers]
    cases hu : get_user_by_id db0 i with
    | none =>
      have hstep : createByCameraStep cid (db, res) i = (db, res) := by
        unfold createByCameraStep
        rw [hgu, hu]
      rw [hstep]
      exact ih db res husers (List.nodup_cons.mp hids).2 hnodup
        (fun j hj => hpre j (List.mem_cons_of_mem _ hj))
    | some u =>
      have huid : u.id = i := get_user_by_id_eq hu
      have hstep : createByCameraStep cid (db, res) i
          = ({db with subs := db.subs ++ [⟨u.id, cid⟩]}, res ++ [⟨u.id, cid⟩]) := by
        unfold createByCameraStep
        rw [hgu, hu]
      rw [hstep]
      refine ih _ _ (by simpa using husers) (List.nodup_cons.mp hids).2
        (nodup_append_singleton hnodup (hpre i (List.mem_cons_self i rest) u hu)) ?_
      intro j hj u2 hu2 hmem
      have hji : j ≠ i := fun heq => (List.nodup_cons.mp hids).1 (heq ▸ hj)
      rcases List.mem_append.mp hmem with hm | hm
      · exact hpre j (List.mem_cons_of_mem _ hj) u2 hu2 hm
      · have heq := List.mem_singleton.mp hm
        have hid2 : u2.id = u.id := congrArg SubRow.user_id heq
        exact hji (by rw [← get_user_by_id_eq hu2, hid2, huid])

theorem update_preserves_nodup (db : DB) (uid : Nat) (ids : List Nat)
    (h : db.subs.Nodup) :
    ((update_camera_subscriptions db uid ids).1).subs.Nodup := by
  unfold update_camera_subscriptions
  exact createPass_preserves_nodup _ _ (deletePass_preserves_nodup _ _ _ db h)

theorem create_by_user_preserves_nodup (db : DB) (uid : Nat) (ids : List Nat)
    (h : db.subs.Nodup) :
    ((create_camera_subscriptions_by_user db uid ids).1).subs.Nodup := by
  unfold create_camera_subscriptions_by_user
  cases hu : get_user_by_id db uid with
  | none => simpa using h
  | some u =>
    dsimp only
    refine createByUser_fold_nodup u.id db _ db [] rfl
      (List.Nodup.filter _ (List.nodup_dedup ids)) h ?_
    intro i hi cam hc hmem
    have hcamid : cam.id = i := get_camera_id_eq hc
    have hsubbed : subscribed db u.id cam.id = true := subscribed_iff.mpr hmem
    have hinuc : cam ∈ user_cameras db u.id :=
      List.mem_filter.mpr ⟨get_camera_mem hc, hsubbed⟩
    have hin : i ∈ (get_camera_subscriptions_by_user db uid).map (·.camera_id) := by
      unfold get_camera_subscriptions_by_user
      rw [hu]
      dsimp only
      rw [List.map_map]
      exact List.mem_map.mpr ⟨cam, hinuc, by simpa using hcamid⟩
    have hfilt := (List.mem_filter.mp hi).2
    simp only [decide_eq_true_eq] at hfilt
    exact hfilt (by simpa using hin)

theorem create_by_camera_preserves_nodup (db : DB) (cid : Nat) (ids : List Nat)
    (h : db.subs.Nodup) :
    ((create_camera_subscriptions_by_camera db cid ids).1).subs.Nodup := by
  unfold create_camera_subscriptions_by_camera
  cases hcam : get_camera db cid with
  | none => simpa using h
  | some cam =>
    dsimp only
    refine createByCamera_fold_nodup cam.id db _ db [] rfl
      (List.Nodup.filter _ (List.nodup_dedup ids)) h ?_
    intro i hi u hu hmem
    have huid : u.id = i := get_user_by_id_eq hu
    have hsubbed : subscribed db u.id cam.id = true := subscribed_iff.mpr hmem
    have hinuc : u ∈ camera_users db cam.id :=
      List.mem_filter.mpr ⟨get_user_by_id_mem hu, hsubbed⟩
    have hin : i ∈ (get_camera_subscriptions_by_camera db cid).map (·.user_id) := by
      unfold get_camera_subscriptions_by_camera
      rw [hcam]
      dsimp only
      rw [List.map_map]
      exact List.mem_map.mpr ⟨u, hinuc, by simpa using huid⟩
    have hfilt := (List.mem_filter.mp hi).2
    simp only [decide_eq_true_eq] at hfilt
    exact hfilt (by simpa using hin)

theorem route_create_preserves_nodup (db : DB) (uid cid : Nat)
    (h : db.subs.Nodup) :
    ((route_create_camera_subscription db uid cid).1).subs.Nodup := by
  unfold route_create_camera_subscription
  by_cases hex : (crud_get_camera_subscription db uid cid).isSome
  · simpa [hex] using h
  · simpa [hex] using crud_create_preserves_nodup db uid cid h

/-- C10: every subscription-mutating operation — the single-subscription
route (which answers 400 when the pair exists), the bulk service
subscribe in both directions (which set-subtracts the already-subscribed
ids), and the reconciling update (whose inserts go through the
pair-primary-key guarded insert) — maps a store with at most one row per
`(user_id, camera_id)` pair to a store with at most one row per pair;
subscribing an already-subscribed pair never creates a second row
(even when the operation itself ends in an error response). -/
theorem C10_at_most_one_row_per_pair (db : DB) (uid cid : Nat) (ids : List Nat)
    (h : db.subs.Nodup) :
    ((route_create_camera_subscription db uid cid).1).subs.Nodup ∧
    ((create_camera_subscriptions_by_user db uid ids).1).subs.Nodup ∧
    ((create_camera_subscriptions_by_camera db cid ids).1).subs.Nodup ∧
    ((update_camera_subscriptions db uid ids).1).subs.Nodup :=
  ⟨route_create_preserves_nodup db uid cid h,
   create_by_user_preserves_nodup db uid ids h,
   create_by_camera_preserves_nodup db cid ids h,
   update_preserves_nodup db uid ids h⟩

/-- Witness for C10 at a concrete input: user 3 already subscribed to
camera 7; re-subscribing the same pair through each operation (with the
id even repeated in the bulk request) leaves the store duplicate-free. -/
theorem C10_witness :
    ((route_create_camera_subscription exDBsub37 3 7).1).subs.Nodup ∧
    ((create_camera_subscriptions_by_user exDBsub37 3 [7, 7]).1).subs.Nodup ∧
    ((create_camera_subscriptions_by_camera exDBsub37 7 [3, 3]).1).subs.Nodup ∧
    ((update_camera_subscriptions exDBsub37 3 [7, 7]).1).subs.Nodup := by
  have h := C10_at_most_one_row_per_pair exDBsub37 3 7 [7, 7] (by decide)
  have h2 := C10_at_most_one_row_per_pair exDBsub37 3 7 [3, 3] (by decide)
  exact ⟨h.1, h.2.1, h2.2.2.1, h.2.2.2⟩

/-! ## C3 (amended): what `update_camera_subscriptions` actually stores -/

theorem sub_eta (s : SubRow) : (⟨s.user_id, s.camera_id⟩ : SubRow) = s := rfl

theorem crud_get_camera_subscription_some {db : DB} {u c : Nat} {s : SubRow}
    (h : crud_get_camera_subscription db u c = some s) :
    s = (⟨u, c⟩ : SubRow) ∧ s ∈ db.subs := by
  have hpred := List.find?_some h
  have hmem := List.mem_of_find?_eq_some h
  have h1 : s.user_id = u := by
    have := (Bool.and_eq_true _ _).mp hpred |>.1
    simpa using this
  have h2 : s.camera_id = c := by
    have := (Bool.and_eq_true _ _).mp hpred |>.2
    simpa using this
  refine ⟨?_, hmem⟩
  cases s
  simp_all

theorem crud_get_camera_subscription_isSome {db : DB} {u c : Nat}
    (h : (⟨u, c⟩ : SubRow) ∈ db.subs) :
    crud_get_camera_subscription db u c = some (⟨u, c⟩ : SubRow) := by
  have hsome : (crud_get_camera_subscription db u c).isSome := by
    unfold crud_get_camera_subscription
    rw [List.find?_isSome]
    exact ⟨⟨u, c⟩, h, by simp⟩
  rcases Option.isSome_iff_exists.mp hsome with ⟨s, hs⟩
  rcases crud_get_camera_subscription_some hs with ⟨rfl, _⟩
  exact hs

theorem mem_eraseSubFirst_of_nodup {l : List SubRow} (hnodup : l.Nodup)
    (u c : Nat) (t : SubRow) :
    t ∈ eraseSubFirst l u c ↔ t ∈ l ∧ t ≠ (⟨u, c⟩ : SubRow) := by
  induction l with
  | nil => simp [eraseSubFirst]
  | cons s rest ih =>
    have hnodup' : rest.Nodup := (List.nodup_cons.mp hnodup).2
    have hsnot : s ∉ rest := (List.nodup_cons.mp hnodup).1
    unfold eraseSubFirst
    by_cases hmatch : (s.user_id == u && s.camera_id == c) = true
    · have hseq : s = (⟨u, c⟩ : SubRow) := by
        have h1 : s.user_id = u := by
          have := (Bool.and_eq_true _ _).mp hmatch |>.1
          simpa using this
        have h2 : s.camera_id = c := by
          have := (Bool.and_eq_true _ _).mp hmatch |>.2
          simpa using this
        cases s
        simp_all
      simp only [hmatch, if_true]
      constructor
      · intro hmem
        refine ⟨List.mem_cons_of_mem s hmem, ?_⟩
        intro heq
        rw [heq, ← hseq] at hmem
        exact hsnot hmem
      · rintro ⟨hmem, hne⟩
        rcases List.mem_cons.mp hmem with rfl | hmem2
        · exact absurd hseq hne
        · exact hmem2
    · have hsne : s ≠ (⟨u, c⟩ : SubRow) := by
        intro heq
        rw [heq] at hmatch
        simp at hmatch
      simp only [hmatch, if_false]
      constructor
      · intro hmem
        rcases List.mem_cons.mp hmem with rfl | hmem2
        · exact ⟨List.mem_cons_self _ _, hsne⟩
        · have := (ih hnodup').mp hmem2
          exact ⟨List.mem_cons_of_mem s this.1, this.2⟩
      · rintro ⟨hmem, hne⟩
        rcases List.mem_cons.mp hmem with rfl | hmem2
        · exact List.mem_cons_self _ _
        · exact List.mem_cons_of_mem s ((ih hnodup').mpr ⟨hmem2, hne⟩)

/-- The `subscriptions_to_create` list built by the first pass: one pair
per requested id with no already-existing row, in request order. -/
theorem buildKeepCreate_create_spec (old : List SubRow) (u : Nat) :
    ∀ (S : List Nat) (k c : List SubRow),
    (buildKeepCreate old u S (k, c)).2
      = c ++ (S.filter
          (fun cid => (old.find? (fun s => s.camera_id == cid)).isNone)).map
          (fun cid => (⟨u, cid⟩ : SubRow)) := by
  intro S
  induction S with
  | nil =>
    intro k c
    simp [buildKeepCreate]
  | cons cid rest ih =>
    intro k c
    unfold buildKeepCreate
    cases hfind : old.find? (fun s => s.camera_id == cid) with
    | some s =>
      dsimp only
      rw [ih]
      simp [List.filter_cons, hfind]
    | none =>
      dsimp only
      rw [ih]
      simp [List.filter_cons, hfind]

/-- Membership in the `subscriptions_to_keep` list built by the first
pass, for an `old` list whose camera ids identify its rows. -/
theorem buildKeepCreate_keep_mem (old : List SubRow) (u : Nat)
    (hinj : ∀ a ∈ old, ∀ b ∈ old, a.camera_id = b.camera_id → a = b) :
    ∀ (S : List Nat) (k c : List SubRow) (m : SubRow),
    (m ∈ (buildKeepCreate old u S (k, c)).1 ↔
      m ∈ k ∨ (m ∈ old ∧ m.camera_id ∈ S)) := by
  intro S
  induction S with
  | nil =>
    intro k c m
    simp [buildKeepCreate]
  | cons cid rest ih =>
    intro k c m
    unfold buildKeepCreate
    cases hfind : old.find? (fun s => s.camera_id == cid) with
    | some s =>
      have hsmem : s ∈ old := List.mem_of_find?_eq_some hfind
      have hscid : s.camera_id = cid := by
        have := List.find?_some hfind
        simpa using this
      dsimp only
      rw [sub_eta s, ih]
      have hknew : ∀ x : SubRow,
          (x ∈ (if k.contains s then k else k ++ [s]) ↔ x ∈ k ∨ x = s) := by
        intro x
        by_cases hc : k.contains s
        · simp only [hc, if_true]
          constructor
          · exact Or.inl
          · rintro (hx | rfl)
            · exact hx
            · exact (by simpa using hc : x ∈ k)
        · simp only [hc, if_false]
          simp [List.mem_append]
      rw [hknew]
      constructor
      · rintro ((hk | rfl) | ⟨hold, hcid⟩)
        · exact Or.inl hk
        · exact Or.inr ⟨hsmem, by rw [hscid]; exact List.mem_cons_self _ _⟩
        · exact Or.inr ⟨hold, List.mem_cons_of_mem _ hcid⟩
      · rintro (hk | ⟨hold, hcid⟩)
        · exact Or.inl (Or.inl hk)
        · rcases List.mem_cons.mp hcid with heq | hrest
          · exact Or.inl (Or.inr (hinj m hold s hsmem (by rw [heq, hscid])))
          · exact Or.inr ⟨hold, hrest⟩
    | none =>
      dsimp only
      rw [ih]
      have hnone : ∀ a ∈ old, a.camera_id ≠ cid := by
        intro a ha
        have := List.find?_eq_none.mp hfind a ha
        simpa using this
      constructor
      · rintro (hk | ⟨hold, hcid⟩)
        · exact Or.inl hk
        · exact Or.inr ⟨hold, List.mem_cons_of_mem _ hcid⟩
      · rintro (hk | ⟨hold, hcid⟩)
        · exact Or.inl hk
        · rcases List.mem_cons.mp hcid with heq | hrest
          · exact absurd heq (hnone m hold)
          · exact Or.inr ⟨hold, hrest⟩

/-- When every pair in `create` is fresh for the store and the pairs are
pairwise distinct, the third pass succeeds, appends exactly those rows,
and reports exactly those records. -/
theorem createPass_spec :
    ∀ (create : List SubRow) (db : DB),
    create.Nodup → (∀ m ∈ create, m ∉ db.subs) →
    ((createPass create db).1).subs = db.subs ++ create ∧
    (createPass create db).2 = .ok create := by
  intro create
  induction create with
  | nil =>
    intro db _ _
    simp [createPass]
  | cons m rest ih =>
    intro db hnodup hfresh
    have hnotmem : m ∉ db.subs := hfresh m (List.mem_cons_self _ _)
    have hnone : crud_get_camera_subscription db m.user_id m.camera_id = none := by
      rw [crud_get_camera_subscription_eq_none, sub_eta]
      exact hnotmem
    have hhd : crud_create_camera_subscription db m.user_id m.camera_id
        = ({db with subs := db.subs ++ [m]}, .ok m) := by
      unfold crud_create_camera_subscription
      rw [hnone]
      simp [sub_eta]
    have hrest : ∀ m2 ∈ rest, m2 ∉ ({db with subs := db.subs ++ [m]} : DB).subs := by
      intro m2 hm2
      simp only [List.mem_append, List.mem_singleton]
      rintro (hmem | rfl)
      · exact hfresh m2 (List.mem_cons_of_mem _ hm2) hmem
      · exact (List.nodup_cons.mp hnodup).1 hm2
    have := ih {db with subs := db.subs ++ [m]} (List.nodup_cons.mp hnodup).2 hrest
    unfold createPass
    rw [hhd]
    dsimp only
    rw [this.1, this.2]
    constructor
    · simp
    · rfl

/-- Membership in the store after the delete pass: exactly the rows of
the original store except those rows of `old` that are neither kept nor
about to be created. -/
theorem deletePass_mem (keep create : List SubRow) :
    ∀ (old : List SubRow) (db : DB), db.subs.Nodup → old.Nodup →
    (∀ s ∈ old, s ∈ db.subs) →
    ∀ t : SubRow,
      (t ∈ ((deletePass keep create old db).1).subs ↔
        t ∈ db.subs ∧ ¬(t ∈ old ∧ ¬ t ∈ keep ∧ ¬ t ∈ create)) := by
  intro old
  induction old with
  | nil =>
    intro db _ _ _ t
    simp [deletePass]
  | cons s rest ih =>
    intro db hdbnodup holdnodup hsubset t
    have hsrest : s ∉ rest := (List.nodup_cons.mp holdnodup).1
    have hrestnodup : rest.Nodup := (List.nodup_cons.mp holdnodup).2
    have hsmem : s ∈ db.subs := hsubset s (List.mem_cons_self _ _)
    unfold deletePass
    by_cases hguard : ¬ keep.contains s ∧ ¬ create.contains s
    · rw [if_pos hguard]
      have hget : crud_get_camera_subscription db s.user_id s.camera_id = some s := by
        have := @crud_get_camera_subscription_isSome db s.user_id s.camera_id
          (by rw [sub_eta]; exact hsmem)
        rwa [sub_eta] at this
      have hdel : crud_delete_camera_subscription db s.user_id s.camera_id
          = ({db with subs := eraseSubFirst db.subs s.user_id s.camera_id}, some s) := by
        unfold crud_delete_camera_subscription
        rw [hget]
      rw [hdel]
      dsimp only
      have hdb2nodup : (eraseSubFirst db.subs s.user_id s.camera_id).Nodup :=
        eraseSubFirst_nodup _ _ hdbnodup
      have hsubset2 : ∀ x ∈ rest,
          x ∈ ({db with subs := eraseSubFirst db.subs s.user_id s.camera_id} : DB).subs := by
        intro x hx
        have hxmem : x ∈ db.subs := hsubset x (List.mem_cons_of_mem _ hx)
        have hxne : x ≠ s := fun heq => hsrest (heq ▸ hx)
        exact (mem_eraseSubFirst_of_nodup hdbnodup _ _ x).mpr
          ⟨hxmem, by rw [sub_eta]; exact hxne⟩
      have hih := ih {db with subs := eraseSubFirst db.subs s.user_id s.camera_id}
        hdb2nodup hrestnodup hsubset2 t
      have hmain : t ∈ ((deletePass keep create rest
          {db with subs := eraseSubFirst db.subs s.user_id s.camera_id}).1).subs ↔
          t ∈ db.subs ∧ ¬(t ∈ s :: rest ∧ ¬ t ∈ keep ∧ ¬ t ∈ create) := by
        rw [hih]
        have herase : t ∈ ({db with
            subs := eraseSubFirst db.subs s.user_id s.camera_id} : DB).subs ↔
            t ∈ db.subs ∧ t ≠ s := by
          have := mem_eraseSubFirst_of_nodup hdbnodup s.user_id s.camera_id t
          rw [sub_eta] at this
          exact this
        rw [herase]
        by_cases hts : t = s
        · rw [hts]
          simp only [ne_eq, not_true_eq_false, and_false, false_and, false_iff]
          intro hcon
          rcases hcon with ⟨_, hcon2⟩
          have hsk : ¬ s ∈ keep := by
            intro hk
            exact hguard.1 (by simpa using hk)
          have hsc : ¬ s ∈ create := by
            intro hk
            exact hguard.2 (by simpa using hk)
          exact hcon2 (⟨List.mem_cons_self _ _, hsk, hsc⟩)
        · constructor
          · rintro ⟨⟨htdb, _⟩, hnot⟩
            refine ⟨htdb, ?_⟩
            rintro ⟨hmem, hkc⟩
            rcases List.mem_cons.mp hmem with heq | hmem2
            · exact hts heq
            · exact hnot ⟨hmem2, hkc⟩
          · rintro ⟨htdb, hnot⟩
            refine ⟨⟨htdb, hts⟩, ?_⟩
            rintro ⟨hmem2, hkc⟩
            exact hnot ⟨List.mem_cons_of_mem _ hmem2, hkc⟩
      exact hmain
    · rw [if_neg hguard]
      have hih := ih db hdbnodup hrestnodup
        (fun x hx => hsubset x (List.mem_cons_of_mem _ hx)) t
      rw [hih]
      have hkc : s ∈ keep ∨ s ∈ create := by
        by_contra hno
        push_neg at hno
        exact hguard ⟨by simpa using hno.1, by simpa using hno.2⟩
      constructor
      · rintro ⟨htdb, hnot⟩
        refine ⟨htdb, ?_⟩
        rintro ⟨hmem, hk, hc⟩
        rcases List.mem_cons.mp hmem with heq | hmem2
        · subst heq
          rcases hkc with h | h
          · exact hk h
          · exact hc h
        · exact hnot ⟨hmem2, hk, hc⟩
      · rintro ⟨htdb, hnot⟩
        refine ⟨htdb, ?_⟩
        rintro ⟨hmem2, hkc2⟩
        exact hnot ⟨List.mem_cons_of_mem _ hmem2, hkc2⟩

/-- C3, amended: after `update_camera_subscriptions(u, S)` (for a
duplicate-free `S`, against a store satisfying the pair-primary-key
invariant whose rows for `u` fit in the one fetched page) the call
succeeds and the stored subscription set for `u` equals `S` itself — NOT
`S ∩ {existing camera ids}`: no existence check is applied, so rows are
created even for camera ids with no camera row (see the counterexample).
Rows of other users are untouched. -/
theorem C3_update_stores_requested_set (db : DB) (u : Nat) (S : List Nat)
    (hnodup : db.subs.Nodup)
    (hS : S.Nodup)
    (hlen : (db.subs.filter (fun s => s.user_id == u)).length ≤ 100) :
    (∃ changes, (update_camera_subscriptions db u S).2 = .ok changes) ∧
    (∀ c : Nat, ((⟨u, c⟩ : SubRow) ∈ ((update_camera_subscriptions db u S).1).subs
      ↔ c ∈ S)) ∧
    (∀ s : SubRow, s.user_id ≠ u →
      (s ∈ ((update_camera_subscriptions db u S).1).subs ↔ s ∈ db.subs)) := by
  have hold_eq : crud_get_camera_subscriptions_by_user_id db u 0 100
      = db.subs.filter (fun s => s.user_id == u) := by
    unfold crud_get_camera_subscriptions_by_user_id
    rw [List.drop_zero, List.take_of_length_le hlen]
  have hold_mem : ∀ s : SubRow,
      (s ∈ db.subs.filter (fun s => s.user_id == u) ↔ s ∈ db.subs ∧ s.user_id = u) := by
    intro s
    rw [List.mem_filter]
    simp
  have hold_nodup : (db.subs.filter (fun s => s.user_id == u)).Nodup :=
    hnodup.filter _
  have hsubsetF : ∀ s ∈ db.subs.filter (fun s => s.user_id == u), s ∈ db.subs :=
    fun s hs => ((hold_mem s).mp hs).1
  have hinj : ∀ a ∈ db.subs.filter (fun s => s.user_id == u),
      ∀ b ∈ db.subs.filter (fun s => s.user_id == u),
      a.camera_id = b.camera_id → a = b := by
    intro a ha b hb hcid
    have hau : a.user_id = u := ((hold_mem a).mp ha).2
    have hbu : b.user_id = u := ((hold_mem b).mp hb).2
    cases a
    cases b
    simp_all
  have hcreate_form : (buildKeepCreate (db.subs.filter (fun s => s.user_id == u))
      u S ([], [])).2
      = ((S.filter (fun cid => ((db.subs.filter (fun s => s.user_id == u)).find?
          (fun s => s.camera_id == cid)).isNone)).map
          (fun cid => (⟨u, cid⟩ : SubRow))) := by
    rw [buildKeepCreate_create_spec]
    simp
  have hmapped_mem : ∀ m : SubRow,
      (m ∈ (S.filter (fun cid => ((db.subs.filter (fun s => s.user_id == u)).find?
          (fun s => s.camera_id == cid)).isNone)).map (fun cid => (⟨u, cid⟩ : SubRow))
        ↔ (m.user_id = u ∧ m.camera_id ∈ S ∧
            ((db.subs.filter (fun s => s.user_id == u)).find?
              (fun s => s.camera_id == m.camera_id)).isNone)) := by
    intro m
    rw [List.mem_map]
    constructor
    · rintro ⟨cid, hcid, rfl⟩
      have := List.mem_filter.mp hcid
      exact ⟨rfl, this.1, by simpa using this.2⟩
    · rintro ⟨hu, hcS, hnone⟩
      refine ⟨m.camera_id, List.mem_filter.mpr ⟨hcS, by simpa using hnone⟩, ?_⟩
      cases m
      simp_all
  have hcreate_nodup : ((S.filter (fun cid =>
      ((db.subs.filter (fun s => s.user_id == u)).find?
        (fun s => s.camera_id == cid)).isNone)).map
      (fun cid => (⟨u, cid⟩ : SubRow))).Nodup := by
    refine (hS.filter _).map ?_
    intro a b hab
    exact congrArg SubRow.camera_id hab
  have hcreate_fresh_db : ∀ m ∈ (S.filter (fun cid =>
      ((db.subs.filter (fun s => s.user_id == u)).find?
        (fun s => s.camera_id == cid)).isNone)).map (fun cid => (⟨u, cid⟩ : SubRow)),
      m ∉ db.subs := by
    intro m hm hmemdb
    rcases (hmapped_mem m).mp hm with ⟨hu, _, hnone⟩
    have hmF : m ∈ db.subs.filter (fun s => s.user_id == u) :=
      (hold_mem m).mpr ⟨hmemdb, hu⟩
    have := List.find?_eq_none.mp (Option.isNone_iff_eq_none.mp hnone) m hmF
    simp at this
  have hdel_mem := deletePass_mem
    (buildKeepCreate (db.subs.filter (fun s => s.user_id == u)) u S ([], [])).1
    (buildKeepCreate (db.subs.filter (fun s => s.user_id == u)) u S ([], [])).2
    (db.subs.filter (fun s => s.user_id == u)) db hnodup hold_nodup hsubsetF
  have hdel_nodup := deletePass_preserves_nodup
    (buildKeepCreate (db.subs.filter (fun s => s.user_id == u)) u S ([], [])).1
    (buildKeepCreate (db.subs.filter (fun s => s.user_id == u)) u S ([], [])).2
    (db.subs.filter (fun s => s.user_id == u)) db hnodup
  have hkeep_mem := buildKeepCreate_keep_mem
    (db.subs.filter (fun s => s.user_id == u)) u hinj S [] []
  have hcreate_fresh_del : ∀ m ∈ (buildKeepCreate
      (db.subs.filter (fun s => s.user_id == u)) u S ([], [])).2,
      m ∉ ((deletePass
        (buildKeepCreate (db.subs.filter (fun s => s.user_id == u)) u S ([], [])).1
        (buildKeepCreate (db.subs.filter (fun s => s.user_id == u)) u S ([], [])).2
        (db.subs.filter (fun s => s.user_id == u)) db).1).subs := by
    intro m hm hmem
    have hmdb := ((hdel_mem m).mp hmem).1
    rw [hcreate_form] at hm
    exact hcreate_fresh_db m hm hmdb
  have hcp := createPass_spec
    (buildKeepCreate (db.subs.filter (fun s => s.user_id == u)) u S ([], [])).2
    ((deletePass
      (buildKeepCreate (db.subs.filter (fun s => s.user_id == u)) u S ([], [])).1
      (buildKeepCreate (db.subs.filter (fun s => s.user_id == u)) u S ([], [])).2
      (db.subs.filter (fun s => s.user_id == u)) db).1)
    (by rw [hcreate_form]; exact hcreate_nodup) hcreate_fresh_del
  have hfinal_subs : ((update_camera_subscriptions db u S).1).subs
      = ((deletePass
          (buildKeepCreate (db.subs.filter (fun s => s.user_id == u)) u S ([], [])).1
          (buildKeepCreate (db.subs.filter (fun s => s.user_id == u)) u S ([], [])).2
          (db.subs.filter (fun s => s.user_id == u)) db).1).subs
        ++ (buildKeepCreate (db.subs.filter (fun s => s.user_id == u)) u S ([], [])).2 := by
    unfold update_camera_subscriptions
    rw [hold_eq]
    exact hcp.1
  refine ⟨?_, ?_, ?_⟩
  · refine ⟨(buildKeepCreate (db.subs.filter (fun s => s.user_id == u)) u S ([], [])).2
      ++ (deletePass
          (buildKeepCreate (db.subs.filter (fun s => s.user_id == u)) u S ([], [])).1
          (buildKeepCreate (db.subs.filter (fun s => s.user_id == u)) u S ([], [])).2
          (db.subs.filter (fun s => s.user_id == u)) db).2, ?_⟩
    unfold update_camera_subscriptions
    rw [hold_eq]
    dsimp only
    rw [hcp.2]
    rfl
  · intro c
    rw [hfinal_subs, List.mem_append]
    constructor
    · rintro (hdel | hcr)
      · have := (hdel_mem _).mp hdel
        rcases this with ⟨hdb, hnot⟩
        have hF : (⟨u, c⟩ : SubRow) ∈ db.subs.filter (fun s => s.user_id == u) :=
          (hold_mem _).mpr ⟨hdb, rfl⟩
        by_cases hkeep : (⟨u, c⟩ : SubRow) ∈ (buildKeepCreate
            (db.subs.filter (fun s => s.user_id == u)) u S ([], [])).1
        · rcases (hkeep_mem _).mp hkeep with hk | ⟨_, hcS⟩
          · simp at hk
          · simpa using hcS
        · by_cases hcr2 : (⟨u, c⟩ : SubRow) ∈ (buildKeepCreate
              (db.subs.filter (fun s => s.user_id == u)) u S ([], [])).2
          · rw [hcreate_form] at hcr2
            exact ((hmapped_mem _).mp hcr2).2.1
          · exact absurd ⟨hF, hkeep, hcr2⟩ hnot
      · rw [hcreate_form] at hcr
        exact ((hmapped_mem _).mp hcr).2.1
    · intro hcS
      cases hfind : (db.subs.filter (fun s => s.user_id == u)).find?
          (fun s => s.camera_id == c) with
      | none =>
        refine Or.inr ?_
        rw [hcreate_form]
        exact (hmapped_mem _).mpr ⟨rfl, hcS, by rw [hfind]; rfl⟩
      | some s =>
        have hsF : s ∈ db.subs.filter (fun s => s.user_id == u) :=
          List.mem_of_find?_eq_some hfind
        have hscid : s.camera_id = c := by
          have := List.find?_some hfind
          simpa using this
        have hsu : s.user_id = u := ((hold_mem s).mp hsF).2
        have hseq : s = (⟨u, c⟩ : SubRow) := by
          cases s
          simp only [SubRow.mk.injEq]
          exact ⟨hsu, hscid⟩
        have hskeep : s ∈ (buildKeepCreate
            (db.subs.filter (fun s => s.user_id == u)) u S ([], [])).1 :=
          (hkeep_mem s).mpr (Or.inr ⟨hsF, by rw [hscid]; exact hcS⟩)
        refine Or.inl ?_
        rw [← hseq]
        refine (hdel_mem s).mpr ⟨hsubsetF s hsF, ?_⟩
        rintro ⟨_, hnk, _⟩
        exact hnk hskeep
  · intro s hsu
    rw [hfinal_subs, List.mem_append]
    constructor
    · rintro (hdel | hcr)
      · exact ((hdel_mem s).mp hdel).1
      · rw [hcreate_form] at hcr
        exact absurd ((hmapped_mem s).mp hcr).1 hsu
    · intro hmemdb
      refine Or.inl ((hdel_mem s).mpr ⟨hmemdb, ?_⟩)
      rintro ⟨hF, _⟩
      exact hsu ((hold_mem s).mp hF).2

/-- Witness for the amended C3 at a concrete input: user 3 starts
subscribed to camera 7; `update(3, [5])` succeeds (camera 5 does not
exist), after which user 3's stored set is exactly `{5}` and other
users' rows are untouched. -/
theorem C3_update_stores_requested_set_witness :
    (∃ changes, (update_camera_subscriptions exDBsub37 3 [5]).2 = .ok changes) ∧
    (∀ c : Nat, ((⟨3, c⟩ : SubRow) ∈ ((update_camera_subscriptions exDBsub37 3 [5]).1).subs
      ↔ c ∈ [5])) ∧
    (∀ s : SubRow, s.user_id ≠ 3 →
      (s ∈ ((update_camera_subscriptions exDBsub37 3 [5]).1).subs ↔ s ∈ exDBsub37.subs)) :=
  C3_update_stores_requested_set exDBsub37 3 [5] (by decide) (by decide) (by decide)

end PiCam
